import Mathlib

/-!
# Verification of the TransPipe payment / attendance core

Shallow embedding of the Payment Request Engine (`src/models/Payment.js`),
the Attendance Ledger (`src/models/Attendance.js`) and the generic row
operations they rely on (`src/models/BaseModel.js`).

The relational store is modelled as lists of rows; SQL `SERIAL` ids are
modelled by per-table counters, and `created_at` timestamps by the
insertion sequence number (both are monotone in insertion order, which is
all the code observes).  Each mutating operation returns the possibly
mutated state *and* an `Except`, mirroring a JavaScript function that may
throw after having already issued writes: an operation that throws before
writing returns the input state unchanged.  Money and ratings are
rationals (`DECIMAL` columns); JavaScript's `toFixed(2)` is modelled as
rounding to two decimals over ℚ.
-/

namespace TransPipe

/-- `payment_status` enum of the schema. -/
inductive PayStatus
  | Pending
  | Approved
  | Rejected
  | Processed
deriving DecidableEq, Repr

/-- `attendance_status` enum of the schema. -/
inductive AttStatus
  | Present
  | Absent
  | Late
  | HalfDay
deriving DecidableEq, Repr

/-- A row of the `users` table (only the primary key matters to the core). -/
structure UserRow where
  id : Nat
deriving DecidableEq, Repr

/-- A row of the `projects` table (fields used by the core). -/
structure ProjectRow where
  id : Nat
  userId : Nat
deriving DecidableEq, Repr

/-- A row of the `workers` table (fields used by the core). -/
structure WorkerRow where
  id : Nat
  userId : Nat
deriving DecidableEq, Repr

/-- A row of the `payment_requests` table. -/
structure PaymentRow where
  id : Nat
  requestId : String
  userId : Nat
  projectId : Nat
  requestDate : Nat
  totalAmount : ℚ
  notes : Option String
  status : PayStatus
  approvedBy : Option Nat
  approvedAt : Option Nat
  rejectionReason : Option String
  createdAt : Nat
deriving DecidableEq, Repr

/-- A row of the `payment_request_workers` table (a payment-request line). -/
structure PaymentWorkerRow where
  paymentRequestId : Nat
  workerId : Nat
  daysWorked : ℚ
  allowancePerDay : ℚ
  totalAmount : ℚ
deriving DecidableEq, Repr

/-- A row of the `attendance` table. -/
structure AttendanceRow where
  id : Nat
  userId : Nat
  workerId : Nat
  projectId : Nat
  date : Nat
  checkIn : Option Nat
  checkOut : Option Nat
  status : AttStatus
  rating : Option ℚ
  comments : Option String
  createdAt : Nat
deriving DecidableEq, Repr

/-- The durable state: the tables the core reads and writes, plus the
`SERIAL` counters of the two tables the core inserts into. -/
structure DBState where
  users : List UserRow
  projects : List ProjectRow
  workers : List WorkerRow
  payment_requests : List PaymentRow
  payment_request_workers : List PaymentWorkerRow
  attendance : List AttendanceRow
  nextPaymentId : Nat
  nextAttendanceId : Nat
deriving DecidableEq, Repr

/-- One element of the `workers` array of `createPaymentRequest`'s input.
`totalAmount` is the caller-supplied per-line total, which the model
recomputes and never stores. -/
structure WorkerInput where
  workerId : Nat
  daysWorked : ℚ
  allowancePerDay : ℚ
  totalAmount : ℚ
deriving DecidableEq, Repr

/-- The input of `Payment.createPaymentRequest`. -/
structure PaymentData where
  userId : Nat
  requestId : String
  projectId : Nat
  requestDate : Nat
  workers : List WorkerInput
  notes : Option String
deriving DecidableEq, Repr

/-! ## Lookups (BaseModel.findById / findOne and the inline SQL queries) -/

/-- `User.findById`. -/
def findUserById (st : DBState) (id : Nat) : Option UserRow :=
  st.users.find? (fun u => u.id == id)

/-- `Project.findById`. -/
def findProjectById (st : DBState) (id : Nat) : Option ProjectRow :=
  st.projects.find? (fun p => p.id == id)

/-- `SELECT * FROM workers WHERE id = $1 AND user_id = $2` (first row). -/
def findWorkerOwned (st : DBState) (workerId userId : Nat) : Option WorkerRow :=
  st.workers.find? (fun w => w.id == workerId && w.userId == userId)

/-- `Payment.findByRequestId` (`findOne { request_id }`). -/
def findByRequestId (st : DBState) (requestId : String) : Option PaymentRow :=
  st.payment_requests.find? (fun r => r.requestId == requestId)

/-- `BaseModel.findById` on `payment_requests`. -/
def findPaymentById (st : DBState) (id : Nat) : Option PaymentRow :=
  st.payment_requests.find? (fun r => r.id == id)

/-- `BaseModel.findById` on `attendance`. -/
def findAttendanceById (st : DBState) (id : Nat) : Option AttendanceRow :=
  st.attendance.find? (fun a => a.id == id)

/-- The check `project && project.user_id === userId` used by the create
and mark operations. -/
def projectOwned (st : DBState) (projectId userId : Nat) : Bool :=
  match findProjectById st projectId with
  | some project => project.userId == userId
  | none => false

/-! ## Payment Request Engine (`src/models/Payment.js`) -/

/-- `UPDATE payment_requests SET ... WHERE id = $1 RETURNING *`:
rewrites every row whose `id` matches and returns the first updated row
(`result.rows[0] || null`). -/
def updatePaymentById (st : DBState) (id : Nat) (f : PaymentRow → PaymentRow) :
    DBState × Option PaymentRow :=
  let rows := st.payment_requests.map (fun r => if r.id = id then f r else r)
  ({ st with payment_requests := rows }, rows.find? (fun r => r.id == id))

/-- The `for (const worker of workers)` ownership loop of
`createPaymentRequest`: the first element whose worker is not owned by
`userId`, if any. -/
def findFirstUnownedWorker (st : DBState) (userId : Nat) :
    List WorkerInput → Option WorkerInput
  | [] => none
  | w :: ws =>
    if (findWorkerOwned st w.workerId userId).isNone then some w
    else findFirstUnownedWorker st userId ws

/-- The read-only validation prefix of `Payment.createPaymentRequest`
(user exists; project exists and is owned; `requestId` unused; every
worker owned), with the error messages thrown by the source. -/
def createPaymentRequestChecks (st : DBState) (d : PaymentData) :
    Except String Unit :=
  if (findUserById st d.userId).isNone then .error "User not found"
  else if ¬ projectOwned st d.projectId d.userId then
    .error "Project not found or access denied"
  else if (findByRequestId st d.requestId).isSome then
    .error "Payment request with this ID already exists"
  else
    match findFirstUnownedWorker st d.userId d.workers with
    | some w =>
      .error ("Worker with ID " ++ toString w.workerId ++ " not found or access denied")
    | none => .ok ()

/-- The line row inserted for one input worker: `total_amount` is the
recomputed `daysWorked * allowancePerDay`, not the caller-supplied one. -/
def mkPaymentWorkerRow (paymentRequestId : Nat) (w : WorkerInput) : PaymentWorkerRow :=
  { paymentRequestId := paymentRequestId
    workerId := w.workerId
    daysWorked := w.daysWorked
    allowancePerDay := w.allowancePerDay
    totalAmount := w.daysWorked * w.allowancePerDay }

/-- `Payment.createPaymentRequest`: validate, compute
`totalAmount = workers.reduce((sum, w) => sum + w.daysWorked * w.allowancePerDay, 0)`,
then transactionally insert the request row (status `Pending`) and one
line row per worker. -/
def createPaymentRequest (st : DBState) (d : PaymentData) :
    DBState × Except String PaymentRow :=
  match createPaymentRequestChecks st d with
  | .error e => (st, .error e)
  | .ok _ =>
    let totalAmount : ℚ :=
      d.workers.foldl (fun sum w => sum + w.daysWorked * w.allowancePerDay) 0
    let paymentRequest : PaymentRow :=
      { id := st.nextPaymentId
        requestId := d.requestId
        userId := d.userId
        projectId := d.projectId
        requestDate := d.requestDate
        totalAmount := totalAmount
        notes := d.notes
        status := .Pending
        approvedBy := none
        approvedAt := none
        rejectionReason := none
        createdAt := st.nextPaymentId }
    let newLines := d.workers.map (mkPaymentWorkerRow paymentRequest.id)
    ({ st with
        payment_requests := st.payment_requests ++ [paymentRequest]
        payment_request_workers := st.payment_request_workers ++ newLines
        nextPaymentId := st.nextPaymentId + 1 },
     .ok paymentRequest)

/-- `Payment.approvePaymentRequest`: load by `request_id`, require status
`Pending`, then set `status/approved_by/approved_at`. -/
def approvePaymentRequest (st : DBState) (requestId : String)
    (approvedBy : Nat) (now : Nat) : DBState × Except String (Option PaymentRow) :=
  match findByRequestId st requestId with
  | none => (st, .error "Payment request not found")
  | some paymentRequest =>
    if paymentRequest.status ≠ PayStatus.Pending then
      (st, .error "Only pending payment requests can be approved")
    else
      let res := updatePaymentById st paymentRequest.id (fun r =>
        { r with status := .Approved, approvedBy := some approvedBy,
                 approvedAt := some now })
      (res.1, .ok res.2)

/-- `Payment.rejectPaymentRequest`: load by `request_id`, require status
`Pending`, then set `status/approved_by/approved_at/rejection_reason`. -/
def rejectPaymentRequest (st : DBState) (requestId : String)
    (rejectedBy : Nat) (now : Nat) (reason : String) :
    DBState × Except String (Option PaymentRow) :=
  match findByRequestId st requestId with
  | none => (st, .error "Payment request not found")
  | some paymentRequest =>
    if paymentRequest.status ≠ PayStatus.Pending then
      (st, .error "Only pending payment requests can be rejected")
    else
      let res := updatePaymentById st paymentRequest.id (fun r =>
        { r with status := .Rejected, approvedBy := some rejectedBy,
                 approvedAt := some now, rejectionReason := some reason })
      (res.1, .ok res.2)

/-- The validation loop of `Payment.processPayments`: a pure read pass
over the ids that either throws (first offending id, with the source's
message) or collects the loaded rows in order. -/
def validatePayments (st : DBState) (userId : Nat) :
    List Nat → Except String (List PaymentRow)
  | [] => .ok []
  | paymentId :: rest =>
    match findPaymentById st paymentId with
    | none =>
      .error ("Payment request with ID " ++ toString paymentId ++ " not found")
    | some payment =>
      if payment.userId ≠ userId then
        .error ("Access denied for payment request " ++ toString paymentId)
      else if payment.status ≠ PayStatus.Approved then
        .error ("Payment request " ++ payment.requestId ++ " is not approved")
      else
        (validatePayments st userId rest).map (fun l => payment :: l)

/-- The return shape of `processPayments`. -/
structure ProcessResult where
  processedPayments : List (Option PaymentRow)
  totalAmount : ℚ
  count : Nat
deriving DecidableEq, Repr

/-- One iteration of the mutation loop of `processPayments`: set the
row's status to `Processed` and push the returned row. -/
def processStep (acc : DBState × List (Option PaymentRow)) (payment : PaymentRow) :
    DBState × List (Option PaymentRow) :=
  let res := updatePaymentById acc.1 payment.id (fun r => { r with status := .Processed })
  (res.1, acc.2 ++ [res.2])

/-- `Payment.processPayments`: validate every id first (reading the
unmutated state), and only then run the mutation loop.  The returned
total is the sum of `total_amount` over the rows read during validation,
and the count is the length of the input list. -/
def processPayments (st : DBState) (paymentIds : List Nat) (userId : Nat) :
    DBState × Except String ProcessResult :=
  match validatePayments st userId paymentIds with
  | .error e => (st, .error e)
  | .ok paymentRequests =>
    let res := paymentRequests.foldl processStep (st, [])
    let totalProcessedAmount : ℚ :=
      paymentRequests.foldl (fun sum p => sum + p.totalAmount) 0
    (res.1, .ok { processedPayments := res.2
                  totalAmount := totalProcessedAmount
                  count := paymentIds.length })

/-- `Payment.deletePaymentRequest`: ownership-scoped load, require
`Pending`, then `DELETE ... WHERE id = $1` (lines go by `ON DELETE
CASCADE` of the schema). -/
def deletePaymentRequest (st : DBState) (paymentRequestId : Nat) (userId : Nat) :
    DBState × Except String Bool :=
  match findPaymentById st paymentRequestId with
  | none => (st, .error "Payment request not found or access denied")
  | some paymentRequest =>
    if paymentRequest.userId ≠ userId then
      (st, .error "Payment request not found or access denied")
    else if paymentRequest.status ≠ PayStatus.Pending then
      (st, .error "Only pending payment requests can be deleted")
    else
      ({ st with
          payment_requests :=
            st.payment_requests.filter (fun r => ¬ r.id == paymentRequestId)
          payment_request_workers :=
            st.payment_request_workers.filter
              (fun l => ¬ l.paymentRequestId == paymentRequestId) },
       .ok true)

/-! ## Attendance Ledger (`src/models/Attendance.js`) -/

/-- The attendance tuple key `(worker, project, date)` as a row predicate. -/
def tupleMatch (workerId projectId date : Nat) (a : AttendanceRow) : Bool :=
  a.workerId == workerId && a.projectId == projectId && a.date == date

/-- `Attendance.findByWorkerAndProject(workerId, projectId, date)` with a
date: `findOne { worker_id, project_id, date }`. -/
def findByWorkerAndProjectDate (st : DBState) (workerId projectId date : Nat) :
    Option AttendanceRow :=
  st.attendance.find? (tupleMatch workerId projectId date)

/-- `UPDATE attendance SET ... WHERE id = $1 RETURNING *`. -/
def updateAttendanceById (st : DBState) (id : Nat) (f : AttendanceRow → AttendanceRow) :
    DBState × Option AttendanceRow :=
  let rows := st.attendance.map (fun a => if a.id = id then f a else a)
  ({ st with attendance := rows }, rows.find? (fun a => a.id == id))

/-- The input of `Attendance.createAttendance`. -/
structure AttendanceData where
  userId : Nat
  workerId : Nat
  projectId : Nat
  date : Nat
  checkIn : Option Nat
  checkOut : Option Nat
  status : AttStatus
deriving DecidableEq, Repr

/-- The input of `Attendance.markAttendanceWithRating` (the source
destructures `attendance` into `status`; Joi requires the rating). -/
structure RatingData where
  userId : Nat
  workerId : Nat
  projectId : Nat
  date : Nat
  status : AttStatus
  rating : ℚ
  comments : Option String
deriving DecidableEq, Repr

/-- `Attendance.createAttendance`: validate user, worker ownership,
project ownership and tuple uniqueness, then insert. -/
def createAttendance (st : DBState) (d : AttendanceData) :
    DBState × Except String AttendanceRow :=
  if (findUserById st d.userId).isNone then (st, .error "User not found")
  else if (findWorkerOwned st d.workerId d.userId).isNone then
    (st, .error "Worker not found or access denied")
  else if ¬ projectOwned st d.projectId d.userId then
    (st, .error "Project not found or access denied")
  else if (findByWorkerAndProjectDate st d.workerId d.projectId d.date).isSome then
    (st, .error "Attendance record already exists for this worker on this date")
  else
    let attendance : AttendanceRow :=
      { id := st.nextAttendanceId
        userId := d.userId
        workerId := d.workerId
        projectId := d.projectId
        date := d.date
        checkIn := d.checkIn
        checkOut := d.checkOut
        status := d.status
        rating := none
        comments := none
        createdAt := st.nextAttendanceId }
    ({ st with attendance := st.attendance ++ [attendance]
               nextAttendanceId := st.nextAttendanceId + 1 },
     .ok attendance)

/-- `Attendance.markAttendanceWithRating`: the same validations as
`createAttendance`, then an upsert keyed on `(worker, project, date)` —
update `status/rating/comments` in place if a record exists, otherwise
insert a new record (with null `check_in`/`check_out`). -/
def markAttendanceWithRating (st : DBState) (d : RatingData) :
    DBState × Except String (Option AttendanceRow) :=
  if (findUserById st d.userId).isNone then (st, .error "User not found")
  else if (findWorkerOwned st d.workerId d.userId).isNone then
    (st, .error "Worker not found or access denied")
  else if ¬ projectOwned st d.projectId d.userId then
    (st, .error "Project not found or access denied")
  else
    match findByWorkerAndProjectDate st d.workerId d.projectId d.date with
    | some existingAttendance =>
      let res := updateAttendanceById st existingAttendance.id (fun a =>
        { a with status := d.status, rating := some d.rating, comments := d.comments })
      (res.1, .ok res.2)
    | none =>
      let attendance : AttendanceRow :=
        { id := st.nextAttendanceId
          userId := d.userId
          workerId := d.workerId
          projectId := d.projectId
          date := d.date
          checkIn := none
          checkOut := none
          status := d.status
          rating := some d.rating
          comments := d.comments
          createdAt := st.nextAttendanceId }
      ({ st with attendance := st.attendance ++ [attendance]
                 nextAttendanceId := st.nextAttendanceId + 1 },
       .ok (some attendance))

/-- The update payload of `Attendance.updateAttendance` after the
field-name mapping: only the five allow-listed columns can change; a
`none` field is absent from the payload and left untouched. -/
structure AttendanceUpdate where
  checkIn : Option Nat := none
  checkOut : Option Nat := none
  status : Option AttStatus := none
  rating : Option ℚ := none
  comments : Option String := none
deriving DecidableEq, Repr

/-- Apply an `AttendanceUpdate` to a row (the `SET` clause built from the
filtered payload). -/
def applyAttendanceUpdate (u : AttendanceUpdate) (a : AttendanceRow) : AttendanceRow :=
  { a with
      checkIn := match u.checkIn with | some v => some v | none => a.checkIn
      checkOut := match u.checkOut with | some v => some v | none => a.checkOut
      status := u.status.getD a.status
      rating := match u.rating with | some v => some v | none => a.rating
      comments := match u.comments with | some v => some v | none => a.comments }

/-- `Attendance.updateAttendance`: a missing record and a record owned by
a different account are reported as two distinct errors. -/
def updateAttendance (st : DBState) (attendanceId : Nat) (u : AttendanceUpdate)
    (userId : Nat) : DBState × Except String (Option AttendanceRow) :=
  match findAttendanceById st attendanceId with
  | none => (st, .error "Attendance record not found")
  | some attendance =>
    if attendance.userId ≠ userId then
      (st, .error "Access denied. You can only update your own attendance records.")
    else
      let res := updateAttendanceById st attendanceId (applyAttendanceUpdate u)
      (res.1, .ok res.2)

/-- `Attendance.deleteAttendance`: a missing record and a record owned by
a different account produce the same single error. -/
def deleteAttendance (st : DBState) (attendanceId : Nat) (userId : Nat) :
    DBState × Except String Bool :=
  match findAttendanceById st attendanceId with
  | none => (st, .error "Attendance record not found or access denied")
  | some attendance =>
    if attendance.userId ≠ userId then
      (st, .error "Attendance record not found or access denied")
    else
      ({ st with attendance := st.attendance.filter (fun a => ¬ a.id == attendanceId) },
       .ok true)

/-! ## Listing with pagination (`getAttendanceRecords`, `getPaymentRequests`) -/

/-- Insertion into a list sorted by the Boolean order `le`. -/
def insertSorted (le : α → α → Bool) (x : α) : List α → List α
  | [] => [x]
  | y :: ys => if le x y then x :: y :: ys else y :: insertSorted le x ys

/-- Insertion sort by the Boolean order `le` (models the `ORDER BY`
clauses; only the multiset of rows matters to the claims). -/
def sortRows (le : α → α → Bool) (l : List α) : List α :=
  l.foldr (insertSorted le) []

/-- `ORDER BY a.date DESC, a.created_at DESC`. -/
def attOrder (a b : AttendanceRow) : Bool :=
  b.date < a.date || (a.date == b.date && b.createdAt ≤ a.createdAt)

/-- `ORDER BY pr.created_at DESC`. -/
def payOrder (a b : PaymentRow) : Bool :=
  b.createdAt ≤ a.createdAt

/-- The filters accepted by `getAttendanceRecords`. -/
structure AttFilters where
  userId : Option Nat := none
  workerId : Option Nat := none
  projectId : Option Nat := none
  status : Option AttStatus := none
  date : Option Nat := none
  startDate : Option Nat := none
  endDate : Option Nat := none
deriving DecidableEq, Repr

/-- The equality conditions built into `conditions` (the object later
passed to `this.count(conditions)`): `user_id`, `worker_id`,
`project_id`, `status`, `date` — the date range is *not* part of it. -/
def attMatchesEqConds (f : AttFilters) (a : AttendanceRow) : Bool :=
  (match f.userId with | none => true | some v => a.userId == v) &&
  (match f.workerId with | none => true | some v => a.workerId == v) &&
  (match f.projectId with | none => true | some v => a.projectId == v) &&
  (match f.status with | none => true | some v => decide (a.status = v)) &&
  (match f.date with | none => true | some v => a.date == v)

/-- The full `WHERE` clause of the page query: the equality conditions
plus `a.date >= startDate` and `a.date <= endDate` when supplied. -/
def attMatchesAllFilters (f : AttFilters) (a : AttendanceRow) : Bool :=
  attMatchesEqConds f a &&
  (match f.startDate with | none => true | some s => s ≤ a.date) &&
  (match f.endDate with | none => true | some e => a.date ≤ e)

/-- The filters accepted by `getPaymentRequests`. -/
structure PayFilters where
  userId : Option Nat := none
  projectId : Option Nat := none
  status : Option PayStatus := none
  startDate : Option Nat := none
  endDate : Option Nat := none
deriving DecidableEq, Repr

/-- The equality conditions passed to `this.count(conditions)` for
payment requests: `user_id`, `project_id`, `status`. -/
def payMatchesEqConds (f : PayFilters) (r : PaymentRow) : Bool :=
  (match f.userId with | none => true | some v => r.userId == v) &&
  (match f.projectId with | none => true | some v => r.projectId == v) &&
  (match f.status with | none => true | some v => decide (r.status = v))

/-- The full `WHERE` clause of the payment page query (adds the
`request_date` range). -/
def payMatchesAllFilters (f : PayFilters) (r : PaymentRow) : Bool :=
  payMatchesEqConds f r &&
  (match f.startDate with | none => true | some s => s ≤ r.requestDate) &&
  (match f.endDate with | none => true | some e => r.requestDate ≤ e)

/-- `page`/`limit` with the source's defaults. -/
structure Pagination where
  page : Nat := 1
  limit : Nat := 10
deriving DecidableEq, Repr

/-- The pagination metadata object both listing operations return. -/
structure PaginationMeta where
  currentPage : Nat
  totalPages : Nat
  totalCount : Nat
  hasNext : Bool
  hasPrev : Bool
deriving DecidableEq, Repr

/-- Build the metadata: `totalPages = ceil(totalCount / limit)`,
`hasNext = page * limit < totalCount`, `hasPrev = page > 1`. -/
def mkPaginationMeta (page limit totalCount : Nat) : PaginationMeta :=
  { currentPage := page
    totalPages := (totalCount + limit - 1) / limit
    totalCount := totalCount
    hasNext := page * limit < totalCount
    hasPrev := 1 < page }

/-- `Attendance.getAttendanceRecords`: page over the rows matching the
full filter set, but compute `totalCount` via `this.count(conditions)`,
i.e. over the equality conditions only. -/
def getAttendanceRecords (st : DBState) (f : AttFilters) (pg : Pagination) :
    List AttendanceRow × PaginationMeta :=
  let offset := (pg.page - 1) * pg.limit
  let rows := sortRows attOrder (st.attendance.filter (attMatchesAllFilters f))
  let pageRows := (rows.drop offset).take pg.limit
  let totalCount := (st.attendance.filter (attMatchesEqConds f)).length
  (pageRows, mkPaginationMeta pg.page pg.limit totalCount)

/-- `Payment.getPaymentRequests`: same shape as the attendance listing. -/
def getPaymentRequests (st : DBState) (f : PayFilters) (pg : Pagination) :
    List PaymentRow × PaginationMeta :=
  let offset := (pg.page - 1) * pg.limit
  let rows := sortRows payOrder (st.payment_requests.filter (payMatchesAllFilters f))
  let pageRows := (rows.drop offset).take pg.limit
  let totalCount := (st.payment_requests.filter (payMatchesEqConds f)).length
  (pageRows, mkPaginationMeta pg.page pg.limit totalCount)

/-! ## Statistics Aggregator (`getAttendanceStats`) -/

/-- The filters accepted by `getAttendanceStats` (its `WHERE` clause does
include the date range, unlike the pagination count). -/
structure StatsFilters where
  userId : Option Nat := none
  projectId : Option Nat := none
  workerId : Option Nat := none
  startDate : Option Nat := none
  endDate : Option Nat := none
deriving DecidableEq, Repr

/-- The shared `WHERE` clause of all five statistics queries. -/
def statsMatches (f : StatsFilters) (a : AttendanceRow) : Bool :=
  (match f.userId with | none => true | some v => a.userId == v) &&
  (match f.projectId with | none => true | some v => a.projectId == v) &&
  (match f.workerId with | none => true | some v => a.workerId == v) &&
  (match f.startDate with | none => true | some s => s ≤ a.date) &&
  (match f.endDate with | none => true | some e => a.date ≤ e)

/-- JavaScript's `toFixed(2)` read back as a number: rounding to two
decimal places over ℚ. -/
def round2 (q : ℚ) : ℚ := (round (q * 100) : ℤ) / 100

/-- The return shape of `getAttendanceStats` (`halfDayCount` is computed
by subtraction in the source, hence `Int`). -/
structure AttStats where
  totalRecords : Nat
  presentCount : Nat
  absentCount : Nat
  lateCount : Nat
  halfDayCount : Int
  attendanceRate : ℚ
  averageRating : ℚ
deriving DecidableEq, Repr

/-- `Attendance.getAttendanceStats`: counts over the filtered rows,
`attendanceRate = (present + late) / total * 100` (two decimals, 0 when
`total = 0`), `averageRating = AVG(rating)` over non-null ratings with
`null` coalesced to 0 before rounding. -/
def getAttendanceStats (st : DBState) (f : StatsFilters) : AttStats :=
  let rows := st.attendance.filter (statsMatches f)
  let total := rows.length
  let present := (rows.filter (fun a => decide (a.status = AttStatus.Present))).length
  let absent := (rows.filter (fun a => decide (a.status = AttStatus.Absent))).length
  let late := (rows.filter (fun a => decide (a.status = AttStatus.Late))).length
  let ratings := rows.filterMap (fun a => a.rating)
  let avg : ℚ := if ratings.isEmpty then 0 else ratings.sum / ratings.length
  { totalRecords := total
    presentCount := present
    absentCount := absent
    lateCount := late
    halfDayCount := (total : Int) - present - absent - late
    attendanceRate :=
      if 0 < total then round2 (((present : ℚ) + late) / total * 100) else 0
    averageRating := round2 avg }

/-- The association of request ids to totals, the quantity the total
invariant says is never touched after creation. -/
def idTotals (st : DBState) : List (Nat × ℚ) :=
  st.payment_requests.map (fun r => (r.id, r.totalAmount))

/-- The status of the request with a given primary key, if any. -/
def statusOf (st : DBState) (id : Nat) : Option PayStatus :=
  (findPaymentById st id).map (fun r => r.status)

/-- The status transitions the spec allows. -/
def legalStep (s t : PayStatus) : Prop :=
  t = s ∨ (s = .Pending ∧ t = .Approved) ∨ (s = .Pending ∧ t = .Rejected) ∨
    (s = .Approved ∧ t = .Processed)

/-- The per-item validation `processPayments` performs: the id refers to
an existing request, owned by the caller and currently `Approved`. -/
def isValidPayment (st : DBState) (userId id : Nat) : Bool :=
  match findPaymentById st id with
  | some r => r.userId == userId && decide (r.status = PayStatus.Approved)
  | none => false

/-- The `total_amount` of the request with a given id (0 when absent);
used to state what `processPayments` returns. -/
def totalOfD (st : DBState) (i : Nat) : ℚ :=
  ((findPaymentById st i).map (fun r => r.totalAmount)).getD 0

/-- The Boolean precondition triple shared by `createAttendance` and
`markAttendanceWithRating`: user exists, worker owned, project owned. -/
def ratingChecksPass (st : DBState) (d : RatingData) : Bool :=
  (findUserById st d.userId).isSome &&
  (findWorkerOwned st d.workerId d.userId).isSome &&
  projectOwned st d.projectId d.userId

/-! ## A concrete database state used to evaluate the operations -/

/-- A pending request owned by account 1. -/
def exP1 : PaymentRow :=
  { id := 1, requestId := "PAY1", userId := 1, projectId := 1, requestDate := 10
    totalAmount := 5160, notes := none, status := .Pending, approvedBy := none
    approvedAt := none, rejectionReason := none, createdAt := 1 }

/-- An approved request owned by account 1. -/
def exP2 : PaymentRow :=
  { id := 2, requestId := "PAY2", userId := 1, projectId := 1, requestDate := 11
    totalAmount := 100, notes := none, status := .Approved, approvedBy := some 2
    approvedAt := some 5, rejectionReason := none, createdAt := 2 }

/-- A second approved request owned by account 1. -/
def exP3 : PaymentRow :=
  { id := 3, requestId := "PAY3", userId := 1, projectId := 1, requestDate := 12
    totalAmount := 7 / 2, notes := none, status := .Approved, approvedBy := some 2
    approvedAt := some 6, rejectionReason := none, createdAt := 3 }

/-- An attendance record with check-in and check-out times, owned by
account 1, for worker 1 / project 1 / date 1. -/
def exA1 : AttendanceRow :=
  { id := 1, userId := 1, workerId := 1, projectId := 1, date := 1
    checkIn := some 540, checkOut := some 1020, status := .Present
    rating := none, comments := none, createdAt := 1 }

/-- A rated attendance record for worker 2 / project 1 / date 5. -/
def exA2 : AttendanceRow :=
  { id := 2, userId := 1, workerId := 2, projectId := 1, date := 5
    checkIn := none, checkOut := none, status := .Late
    rating := some 4, comments := none, createdAt := 2 }

/-- A populated state: two accounts, one project and two workers owned by
account 1, three payment requests and two attendance records. -/
def exSt : DBState :=
  { users := [⟨1⟩, ⟨2⟩]
    projects := [⟨1, 1⟩]
    workers := [⟨1, 1⟩, ⟨2, 1⟩]
    payment_requests := [exP1, exP2, exP3]
    payment_request_workers := []
    attendance := [exA1, exA2]
    nextPaymentId := 4
    nextAttendanceId := 3 }

/-- The same state with no attendance rows. -/
def exStEmptyAtt : DBState := { exSt with attendance := [] }

/-- A well-formed create input: two owned workers, caller-supplied line
totals deliberately wrong (999 and 5) to exercise the recomputation. -/
def exC1data : PaymentData :=
  { userId := 1, requestId := "PAY9", projectId := 1, requestDate := 20
    workers := [⟨1, 20, 150, 999⟩, ⟨2, 18, 120, 5⟩], notes := none }

/-- The request row `createPaymentRequest` inserts for `exC1data`. -/
def exC1row : PaymentRow :=
  { id := 4, requestId := "PAY9", userId := 1, projectId := 1, requestDate := 20
    totalAmount := 5160, notes := none, status := .Pending, approvedBy := none
    approvedAt := none, rejectionReason := none, createdAt := 4 }

/-- The state after creating `exC1data`. -/
def exC1st : DBState := (createPaymentRequest exSt exC1data).1

/-- A create input with an empty `workers` array. -/
def exC4data : PaymentData :=
  { userId := 1, requestId := "PAYX", projectId := 1, requestDate := 5
    workers := [], notes := none }

/-- The zero-total, line-less request row the model inserts for
`exC4data`. -/
def exC4row : PaymentRow :=
  { id := 4, requestId := "PAYX", userId := 1, projectId := 1, requestDate := 5
    totalAmount := 0, notes := none, status := .Pending, approvedBy := none
    approvedAt := none, rejectionReason := none, createdAt := 4 }

/-- First supervisor rating call for the tuple of `exA1`. -/
def exC5d1 : RatingData :=
  { userId := 1, workerId := 1, projectId := 1, date := 1
    status := .Late, rating := 3, comments := some "slow" }

/-- Second rating call for the same tuple with a different rating. -/
def exC5d2 : RatingData :=
  { userId := 1, workerId := 1, projectId := 1, date := 1
    status := .Present, rating := 5, comments := none }

/-- The state after the first rating call. -/
def exC5st1 : DBState := (markAttendanceWithRating exSt exC5d1).1

/-- The state after both rating calls. -/
def exC5st2 : DBState := (markAttendanceWithRating exC5st1 exC5d2).1

/-- An attendance filter supplying only a lower date bound. -/
def exAttF : AttFilters := { startDate := some 3 }

/-- A payment filter supplying only a lower date bound. -/
def exPayF : PayFilters := { startDate := some 11 }

/-! ## General list lemmas -/

theorem find?_eq_head?_filter (p : α → Bool) (l : List α) :
    l.find? p = (l.filter p).head? := by
  induction l with
  | nil => rfl
  | cons a l ih =>
    by_cases h : p a
    · rw [List.find?_cons_of_pos _ h, List.filter_cons, if_pos h]
      rfl
    · rw [List.find?_cons_of_neg _ h, List.filter_cons, if_neg h, ih]

theorem filter_map_of_pres (p : α → Bool) (g : α → α)
    (h : ∀ a, p (g a) = p a) (l : List α) :
    (l.map g).filter p = (l.filter p).map g := by
  induction l with
  | nil => rfl
  | cons a l ih =>
    by_cases ha : p a
    · simp only [List.map_cons, List.filter_cons, h a, ha, if_pos, List.map, ih]
    · simp only [List.map_cons, List.filter_cons, h a, ha]
      simp only [if_neg, ih, Bool.false_eq_true, reduceIte]

theorem find?_map_of_pres (p : α → Bool) (g : α → α)
    (h : ∀ a, p (g a) = p a) (l : List α) :
    (l.map g).find? p = (l.find? p).map g := by
  rw [find?_eq_head?_filter, find?_eq_head?_filter, filter_map_of_pres p g h]
  cases l.filter p <;> rfl

theorem filter_singleton_of_le_one {p : α → Bool} {l : List α} {a : α}
    (hmem : a ∈ l) (hp : p a = true) (hlen : (l.filter p).length ≤ 1) :
    l.filter p = [a] := by
  have hmem' : a ∈ l.filter p := List.mem_filter.mpr ⟨hmem, hp⟩
  match hfl : l.filter p with
  | [] => rw [hfl] at hmem'; cases hmem'
  | [b] =>
    rw [hfl] at hmem'
    simp only [List.mem_singleton] at hmem'
    rw [hmem']
  | b :: c :: rest =>
    rw [hfl] at hlen
    simp at hlen

theorem find?_filter_of_imp {p q : α → Bool} (l : List α)
    (h : ∀ a, p a = true → q a = true) :
    (l.filter q).find? p = l.find? p := by
  induction l with
  | nil => rfl
  | cons a l ih =>
    by_cases hp : p a
    · rw [List.filter_cons, if_pos (h a hp), List.find?_cons_of_pos _ hp,
        List.find?_cons_of_pos _ hp]
    · by_cases hq : q a
      · rw [List.filter_cons, if_pos hq, List.find?_cons_of_neg _ hp,
          List.find?_cons_of_neg _ hp, ih]
      · rw [List.filter_cons, if_neg hq, List.find?_cons_of_neg _ hp, ih]

theorem foldl_add_map (f : α → ℚ) (l : List α) (init : ℚ) :
    l.foldl (fun s w => s + f w) init = init + (l.map f).sum := by
  induction l generalizing init with
  | nil => simp
  | cons a l ih =>
    simp only [List.foldl_cons, List.map_cons, List.sum_cons, ih, add_assoc]

theorem eq_of_mem_of_nodup_map {f : α → β} {l : List α}
    (h : (l.map f).Nodup) :
    ∀ a ∈ l, ∀ b ∈ l, f a = f b → a = b := by
  induction l with
  | nil => intro a ha; cases ha
  | cons x l ih =>
    rw [List.map_cons, List.nodup_cons] at h
    intro a ha b hb hfab
    rcases List.mem_cons.mp ha with rfl | ha' <;>
      rcases List.mem_cons.mp hb with rfl | hb'
    · rfl
    · exact absurd (List.mem_map.mpr ⟨b, hb', hfab.symm⟩) h.1
    · exact absurd (List.mem_map.mpr ⟨a, ha', hfab⟩) h.1
    · exact ih h.2 a ha' b hb' hfab

theorem length_insertSorted (le : α → α → Bool) (x : α) (l : List α) :
    (insertSorted le x l).length = l.length + 1 := by
  induction l with
  | nil => rfl
  | cons y ys ih =>
    by_cases h : le x y <;> simp [insertSorted, h, ih]

theorem length_sortRows (le : α → α → Bool) (l : List α) :
    (sortRows le l).length = l.length := by
  induction l with
  | nil => rfl
  | cons a l ih =>
    simp only [sortRows, List.foldr_cons] at *
    rw [length_insertSorted, ih, List.length_cons]

theorem length_filter_add_length_filter_le (p q : α → Bool)
    (h : ∀ a, ¬(p a = true ∧ q a = true)) (l : List α) :
    (l.filter p).length + (l.filter q).length ≤ l.length := by
  induction l with
  | nil => simp
  | cons a l ih =>
    by_cases hp : p a
    · have hq : ¬ q a = true := fun hq => h a ⟨hp, hq⟩
      simp only [List.filter_cons, if_pos hp, if_neg hq, List.length_cons]
      omega
    · by_cases hq : q a <;>
        simp only [List.filter_cons, if_pos, if_neg, hp, hq, List.length_cons,
          Bool.false_eq_true, reduceIte] <;> omega

theorem list_sum_le_mul_length (l : List ℚ) (c : ℚ) (h : ∀ x ∈ l, x ≤ c) :
    l.sum ≤ c * l.length := by
  induction l with
  | nil => simp
  | cons a l ih =>
    have ha := h a (List.mem_cons_self a l)
    have hl := ih (fun x hx => h x (List.mem_cons_of_mem a hx))
    simp only [List.sum_cons, List.length_cons]
    push_cast
    linarith

theorem mul_length_le_list_sum (l : List ℚ) (c : ℚ) (h : ∀ x ∈ l, c ≤ x) :
    c * l.length ≤ l.sum := by
  induction l with
  | nil => simp
  | cons a l ih =>
    have ha := h a (List.mem_cons_self a l)
    have hl := ih (fun x hx => h x (List.mem_cons_of_mem a hx))
    simp only [List.sum_cons, List.length_cons]
    push_cast
    linarith

/-! ## Lemmas about rounding to two decimals -/

theorem round_nonneg_of_nonneg {q : ℚ} (h : 0 ≤ q) : 0 ≤ round q := by
  rw [round_eq]
  exact Int.le_floor.mpr (by push_cast; linarith)

theorem round_le_intCast {q : ℚ} {n : ℤ} (h : q ≤ n) : round q ≤ n := by
  rw [round_eq]
  have h1 : ⌊q + 1 / 2⌋ ≤ ⌊(n : ℚ) + 1 / 2⌋ := Int.floor_mono (by linarith)
  have h2 : ⌊(n : ℚ) + 1 / 2⌋ = n := by
    rw [Int.floor_int_add]
    norm_num
  omega

theorem round2_nonneg {q : ℚ} (h : 0 ≤ q) : 0 ≤ round2 q := by
  unfold round2
  have h1 : 0 ≤ round (q * 100) := round_nonneg_of_nonneg (by linarith)
  have h2 : (0 : ℚ) ≤ (round (q * 100) : ℤ) := by exact_mod_cast h1
  positivity

theorem round2_le_intCast {q : ℚ} {n : ℤ} (h : q ≤ n) : round2 q ≤ n := by
  unfold round2
  have h1 : q * 100 ≤ ((n * 100 : ℤ) : ℚ) := by push_cast; linarith
  have h2 := round_le_intCast h1
  rw [div_le_iff₀ (by norm_num : (0 : ℚ) < 100)]
  calc ((round (q * 100) : ℤ) : ℚ) ≤ ((n * 100 : ℤ) : ℚ) := by exact_mod_cast h2
    _ = (n : ℚ) * 100 := by push_cast; ring

theorem round2_zero : round2 0 = 0 := by
  unfold round2
  norm_num

/-! ## Lemmas about the Payment Request Engine -/

theorem idTotals_map_update (l : List PaymentRow) (id : Nat)
    (f : PaymentRow → PaymentRow)
    (hid : ∀ r, (f r).id = r.id) (hta : ∀ r, (f r).totalAmount = r.totalAmount) :
    (l.map (fun r => if r.id = id then f r else r)).map
        (fun r => (r.id, r.totalAmount))
      = l.map (fun r => (r.id, r.totalAmount)) := by
  rw [List.map_map]
  apply List.map_congr_left
  intro a _
  by_cases h : a.id = id <;> simp [Function.comp, h, hid, hta]

theorem approve_preserves_idTotals (st : DBState) (rid : String) (u now : Nat) :
    idTotals (approvePaymentRequest st rid u now).1 = idTotals st := by
  unfold approvePaymentRequest
  cases hf : findByRequestId st rid with
  | none => rfl
  | some p =>
    by_cases hs : p.status ≠ PayStatus.Pending
    · simp only [if_pos hs]
    · simp only [if_neg hs, updatePaymentById, idTotals]
      exact idTotals_map_update _ _ _ (fun r => rfl) (fun r => rfl)

theorem reject_preserves_idTotals (st : DBState) (rid : String)
    (u now : Nat) (reason : String) :
    idTotals (rejectPaymentRequest st rid u now reason).1 = idTotals st := by
  unfold rejectPaymentRequest
  cases hf : findByRequestId st rid with
  | none => rfl
  | some p =>
    by_cases hs : p.status ≠ PayStatus.Pending
    · simp only [if_pos hs]
    · simp only [if_neg hs, updatePaymentById, idTotals]
      exact idTotals_map_update _ _ _ (fun r => rfl) (fun r => rfl)

theorem processStep_preserves_idTotals (acc : DBState × List (Option PaymentRow))
    (p : PaymentRow) : idTotals (processStep acc p).1 = idTotals acc.1 := by
  unfold processStep updatePaymentById idTotals
  exact idTotals_map_update _ _ _ (fun r => rfl) (fun r => rfl)

theorem foldl_processStep_preserves_idTotals (rows : List PaymentRow) :
    ∀ acc : DBState × List (Option PaymentRow),
      idTotals (rows.foldl processStep acc).1 = idTotals acc.1 := by
  induction rows with
  | nil => intro acc; rfl
  | cons p rows ih =>
    intro acc
    rw [List.foldl_cons, ih, processStep_preserves_idTotals]

theorem process_preserves_idTotals (st : DBState) (ids : List Nat) (u : Nat) :
    idTotals (processPayments st ids u).1 = idTotals st := by
  unfold processPayments
  cases hv : validatePayments st u ids with
  | error e => rfl
  | ok rows => exact foldl_processStep_preserves_idTotals rows (st, [])

/-- The mutation loop of `processPayments` rewrites exactly the rows whose
id occurs among the validated rows, setting their status to `Processed`. -/
theorem foldl_processStep_payment_requests (rows : List PaymentRow) :
    ∀ (st : DBState) (acc : List (Option PaymentRow)),
      ((rows.foldl processStep (st, acc)).1).payment_requests
        = st.payment_requests.map (fun r =>
            if r.id ∈ rows.map (fun p => p.id) then
              { r with status := PayStatus.Processed } else r) := by
  induction rows with
  | nil =>
    intro st acc
    simp
  | cons p rows ih =>
    intro st acc
    rw [List.foldl_cons]
    show ((rows.foldl processStep (processStep (st, acc) p)).1).payment_requests = _
    have hstep : (processStep (st, acc) p).1.payment_requests
        = st.payment_requests.map (fun r =>
            if r.id = p.id then { r with status := PayStatus.Processed } else r) := rfl
    have hpair : processStep (st, acc) p
        = ((processStep (st, acc) p).1, (processStep (st, acc) p).2) := rfl
    rw [hpair, ih]
    rw [hstep, List.map_map]
    apply List.map_congr_left
    intro r _
    by_cases h : r.id = p.id
    · simp only [Function.comp, if_pos h, List.map_cons, List.mem_cons, h]
      simp
    · simp only [Function.comp, if_neg h, List.map_cons, List.mem_cons, h,
        false_or, if_false, Bool.false_eq_true, reduceIte]

/-- Every row collected by the validation loop was loaded from the state,
is owned by the caller and is `Approved`. -/
theorem validatePayments_ok_mem {st : DBState} {u : Nat} :
    ∀ {ids : List Nat} {rows : List PaymentRow},
      validatePayments st u ids = .ok rows →
      ∀ row ∈ rows, findPaymentById st row.id = some row ∧
        row.userId = u ∧ row.status = PayStatus.Approved := by
  intro ids
  induction ids with
  | nil =>
    intro rows h row hrow
    simp only [validatePayments, Except.ok.injEq] at h
    rw [← h] at hrow
    cases hrow
  | cons i ids ih =>
    intro rows h row hrow
    cases hf : findPaymentById st i with
    | none =>
      simp only [validatePayments, hf] at h
      cases h
    | some payment =>
      simp only [validatePayments, hf] at h
      by_cases hu : payment.userId ≠ u
      · rw [if_pos hu] at h; cases h
      · rw [if_neg hu] at h
        by_cases hs : payment.status ≠ PayStatus.Approved
        · rw [if_pos hs] at h; cases h
        · rw [if_neg hs] at h
          cases hrest : validatePayments st u ids with
          | error e => rw [hrest] at h; cases h
          | ok rows' =>
            rw [hrest] at h
            simp only [Except.map, Except.ok.injEq] at h
            rw [← h] at hrow
            rcases List.mem_cons.mp hrow with rfl | hrow'
            · have hid : row.id = i := by
                have := List.find?_some hf
                simpa [beq_iff_eq] using this
              refine ⟨hid ▸ hf, not_ne_iff.mp hu, not_ne_iff.mp hs⟩
            · exact ih hrest row hrow'

/-- If every id in the list refers to an owned `Approved` request, the
validation loop succeeds and returns exactly the loaded rows. -/
theorem validatePayments_ok_of_valid {st : DBState} {u : Nat} :
    ∀ {ids : List Nat},
      (∀ id ∈ ids, ∃ r, findPaymentById st id = some r ∧
        r.userId = u ∧ r.status = PayStatus.Approved) →
      validatePayments st u ids = .ok (ids.filterMap (findPaymentById st)) := by
  intro ids
  induction ids with
  | nil => intro _; rfl
  | cons i ids ih =>
    intro h
    obtain ⟨r, hr, hru, hrs⟩ := h i (List.mem_cons_self i ids)
    have hrest := ih (fun id hid => h id (List.mem_cons_of_mem i hid))
    simp only [validatePayments, hr, List.filterMap_cons, if_neg (not_ne_iff.mpr hru),
      if_neg (not_ne_iff.mpr hrs), hrest, Except.map]

/-- If the validation loop fails, so does `processPayments`, leaving the
state untouched. -/
theorem processPayments_error_of_validate_error {st : DBState} {u : Nat}
    {ids : List Nat} {e : String} (h : validatePayments st u ids = .error e) :
    processPayments st ids u = (st, .error e) := by
  simp only [processPayments, h]

theorem isValidPayment_iff {st : DBState} {u id : Nat} :
    isValidPayment st u id = true ↔
      ∃ r, findPaymentById st id = some r ∧ r.userId = u ∧
        r.status = PayStatus.Approved := by
  unfold isValidPayment
  cases hf : findPaymentById st id with
  | none => simp
  | some r =>
    simp only [Bool.and_eq_true, beq_iff_eq, decide_eq_true_eq, Option.some.injEq]
    constructor
    · rintro ⟨h1, h2⟩
      exact ⟨r, rfl, h1, h2⟩
    · rintro ⟨r', hr', h1, h2⟩
      cases hr'
      exact ⟨h1, h2⟩

/-- A successful validation loop means every id in the list was valid. -/
theorem validatePayments_ok_forall_ids {st : DBState} {u : Nat} :
    ∀ {ids : List Nat} {rows : List PaymentRow},
      validatePayments st u ids = .ok rows →
      ∀ id ∈ ids, isValidPayment st u id = true := by
  intro ids
  induction ids with
  | nil => intro rows _ id hid; cases hid
  | cons i ids ih =>
    intro rows h id hid
    cases hf : findPaymentById st i with
    | none =>
      simp only [validatePayments, hf] at h
      cases h
    | some payment =>
      simp only [validatePayments, hf] at h
      by_cases hu : payment.userId ≠ u
      · rw [if_pos hu] at h; cases h
      · rw [if_neg hu] at h
        by_cases hs : payment.status ≠ PayStatus.Approved
        · rw [if_pos hs] at h; cases h
        · rw [if_neg hs] at h
          cases hrest : validatePayments st u ids with
          | error e => rw [hrest] at h; cases h
          | ok rows' =>
            rcases List.mem_cons.mp hid with rfl | hid'
            · exact isValidPayment_iff.mpr
                ⟨payment, hf, not_ne_iff.mp hu, not_ne_iff.mp hs⟩
            · exact ih hrest id hid'

theorem filterMap_find_map_id {st : DBState} :
    ∀ {ids : List Nat},
      (∀ id ∈ ids, (findPaymentById st id).isSome) →
      (ids.filterMap (findPaymentById st)).map (fun r => r.id) = ids := by
  intro ids
  induction ids with
  | nil => intro _; rfl
  | cons i ids ih =>
    intro h
    obtain ⟨r, hr⟩ := Option.isSome_iff_exists.mp (h i (List.mem_cons_self i ids))
    have hid : r.id = i := by
      have := List.find?_some hr
      simpa [beq_iff_eq] using this
    rw [List.filterMap_cons, hr, List.map_cons, hid,
      ih (fun id hid => h id (List.mem_cons_of_mem i hid))]

theorem filterMap_find_map_total {st : DBState} :
    ∀ {ids : List Nat},
      (∀ id ∈ ids, (findPaymentById st id).isSome) →
      (ids.filterMap (findPaymentById st)).map (fun r => r.totalAmount)
        = ids.map (totalOfD st) := by
  intro ids
  induction ids with
  | nil => intro _; rfl
  | cons i ids ih =>
    intro h
    obtain ⟨r, hr⟩ := Option.isSome_iff_exists.mp (h i (List.mem_cons_self i ids))
    rw [List.filterMap_cons, hr, List.map_cons, List.map_cons,
      ih (fun id hid => h id (List.mem_cons_of_mem i hid))]
    simp [totalOfD, hr]

/-- `approvePaymentRequest` succeeds exactly when the request exists and
is `Pending`. -/
theorem approve_ok_iff (st : DBState) (rid : String) (u now : Nat) :
    (∃ v, (approvePaymentRequest st rid u now).2 = .ok v) ↔
      ∃ r, findByRequestId st rid = some r ∧ r.status = PayStatus.Pending := by
  cases hf : findByRequestId st rid with
  | none =>
    simp only [approvePaymentRequest, hf]
    constructor
    · rintro ⟨v, hv⟩; cases hv
    · rintro ⟨r, hr, _⟩; cases hr
  | some p =>
    simp only [approvePaymentRequest, hf]
    by_cases hs : p.status ≠ PayStatus.Pending
    · rw [if_pos hs]
      constructor
      · rintro ⟨v, hv⟩; cases hv
      · rintro ⟨r, hr, hrs⟩
        cases hr
        exact absurd hrs hs
    · rw [if_neg hs]
      constructor
      · intro _; exact ⟨p, rfl, not_ne_iff.mp hs⟩
      · intro _; exact ⟨_, rfl⟩

/-- `rejectPaymentRequest` succeeds exactly when the request exists and
is `Pending`. -/
theorem reject_ok_iff (st : DBState) (rid : String) (u now : Nat) (reason : String) :
    (∃ v, (rejectPaymentRequest st rid u now reason).2 = .ok v) ↔
      ∃ r, findByRequestId st rid = some r ∧ r.status = PayStatus.Pending := by
  cases hf : findByRequestId st rid with
  | none =>
    simp only [rejectPaymentRequest, hf]
    constructor
    · rintro ⟨v, hv⟩; cases hv
    · rintro ⟨r, hr, _⟩; cases hr
  | some p =>
    simp only [rejectPaymentRequest, hf]
    by_cases hs : p.status ≠ PayStatus.Pending
    · rw [if_pos hs]
      constructor
      · rintro ⟨v, hv⟩; cases hv
      · rintro ⟨r, hr, hrs⟩
        cases hr
        exact absurd hrs hs
    · rw [if_neg hs]
      constructor
      · intro _; exact ⟨p, rfl, not_ne_iff.mp hs⟩
      · intro _; exact ⟨_, rfl⟩

/-- A successful delete implies the request existed, was owned by the
caller and was `Pending`. -/
theorem delete_ok_implies (st : DBState) (id u : Nat) :
    (∃ v, (deletePaymentRequest st id u).2 = .ok v) →
      ∃ r, findPaymentById st id = some r ∧ r.userId = u ∧
        r.status = PayStatus.Pending := by
  cases hf : findPaymentById st id with
  | none =>
    simp only [deletePaymentRequest, hf]
    rintro ⟨v, hv⟩; cases hv
  | some p =>
    simp only [deletePaymentRequest, hf]
    by_cases hu : p.userId ≠ u
    · rw [if_pos hu]
      rintro ⟨v, hv⟩; cases hv
    · rw [if_neg hu]
      by_cases hs : p.status ≠ PayStatus.Pending
      · rw [if_pos hs]
        rintro ⟨v, hv⟩; cases hv
      · rw [if_neg hs]
        intro _
        exact ⟨p, rfl, not_ne_iff.mp hu, not_ne_iff.mp hs⟩

theorem find?_id_map_update (l : List PaymentRow) (pid : Nat)
    (f : PaymentRow → PaymentRow) (hid : ∀ r, (f r).id = r.id) (id : Nat) :
    (l.map (fun r => if r.id = pid then f r else r)).find? (fun r => r.id == id)
      = (l.find? (fun r => r.id == id)).map
          (fun r => if r.id = pid then f r else r) := by
  apply find?_map_of_pres
  intro a
  by_cases h : a.id = pid <;> simp [h, hid]

/-- `approvePaymentRequest` only ever moves a row from `Pending` to
`Approved` (when primary keys are unique, as the schema guarantees). -/
theorem approve_legalStep (st : DBState) (rid : String) (u now : Nat)
    (hNodup : (st.payment_requests.map (fun r => r.id)).Nodup) :
    ∀ id r r', findPaymentById st id = some r →
      findPaymentById (approvePaymentRequest st rid u now).1 id = some r' →
      legalStep r.status r'.status := by
  intro id r r' hr hr'
  cases hf : findByRequestId st rid with
  | none =>
    simp only [approvePaymentRequest, hf] at hr'
    rw [hr] at hr'
    cases hr'
    exact Or.inl rfl
  | some p =>
    simp only [approvePaymentRequest, hf] at hr'
    by_cases hs : p.status ≠ PayStatus.Pending
    · rw [if_pos hs] at hr'
      rw [hr] at hr'
      cases hr'
      exact Or.inl rfl
    · rw [if_neg hs] at hr'
      simp only [updatePaymentById, findPaymentById] at hr'
      rw [find?_map_of_pres _ _ (fun a => by
        by_cases h : a.id = p.id <;> simp [h])] at hr'
      unfold findPaymentById at hr
      rw [hr] at hr'
      simp only [Option.map_some'] at hr'
      by_cases hidp : r.id = p.id
      · have hrp : r = p :=
          eq_of_mem_of_nodup_map hNodup r (List.mem_of_find?_eq_some hr) p
            (List.mem_of_find?_eq_some hf) hidp

        rw [if_pos hidp] at hr'
        injection hr' with h'
        subst h'
        right; left
        exact ⟨hrp ▸ not_ne_iff.mp hs, rfl⟩
      · rw [if_neg hidp] at hr'
        injection hr' with h'
        subst h'
        exact Or.inl rfl

/-- `rejectPaymentRequest` only ever moves a row from `Pending` to
`Rejected`. -/
theorem reject_legalStep (st : DBState) (rid : String) (u now : Nat)
    (reason : String)
    (hNodup : (st.payment_requests.map (fun r => r.id)).Nodup) :
    ∀ id r r', findPaymentById st id = some r →
      findPaymentById (rejectPaymentRequest st rid u now reason).1 id = some r' →
      legalStep r.status r'.status := by
  intro id r r' hr hr'
  cases hf : findByRequestId st rid with
  | none =>
    simp only [rejectPaymentRequest, hf] at hr'
    rw [hr] at hr'
    cases hr'
    exact Or.inl rfl
  | some p =>
    simp only [rejectPaymentRequest, hf] at hr'
    by_cases hs : p.status ≠ PayStatus.Pending
    · rw [if_pos hs] at hr'
      rw [hr] at hr'
      cases hr'
      exact Or.inl rfl
    · rw [if_neg hs] at hr'
      simp only [updatePaymentById, findPaymentById] at hr'
      rw [find?_map_of_pres _ _ (fun a => by
        by_cases h : a.id = p.id <;> simp [h])] at hr'
      unfold findPaymentById at hr
      rw [hr] at hr'
      simp only [Option.map_some'] at hr'
      by_cases hidp : r.id = p.id
      · have hrp : r = p :=
          eq_of_mem_of_nodup_map hNodup r (List.mem_of_find?_eq_some hr) p
            (List.mem_of_find?_eq_some hf) hidp
        rw [if_pos hidp] at hr'
        injection hr' with h'
        subst h'
        right; right; left
        exact ⟨hrp ▸ not_ne_iff.mp hs, rfl⟩
      · rw [if_neg hidp] at hr'
        injection hr' with h'
        subst h'
        exact Or.inl rfl

/-- `processPayments` only ever moves rows from `Approved` to
`Processed`. -/
theorem process_legalStep (st : DBState) (ids : List Nat) (u : Nat) :
    ∀ id r r', findPaymentById st id = some r →
      findPaymentById (processPayments st ids u).1 id = some r' →
      legalStep r.status r'.status := by
  intro id r r' hr hr'
  cases hv : validatePayments st u ids with
  | error e =>
    rw [processPayments_error_of_validate_error hv] at hr'
    rw [hr] at hr'
    cases hr'
    exact Or.inl rfl
  | ok rows =>
    simp only [processPayments, hv] at hr'
    have hfold := foldl_processStep_payment_requests rows st []
    unfold findPaymentById at hr'
    rw [hfold, find?_map_of_pres _ _ (fun a => by
      by_cases h : a.id ∈ rows.map (fun p => p.id) <;> simp [h])] at hr'
    unfold findPaymentById at hr
    rw [hr] at hr'
    simp only [Option.map_some'] at hr'
    by_cases hmem : r.id ∈ rows.map (fun p => p.id)
    · obtain ⟨row, hrowmem, hrowid⟩ := List.mem_map.mp hmem
      obtain ⟨hrowfind, _, hrowst⟩ := validatePayments_ok_mem hv row hrowmem
      have hid : r.id = id := by
        have := List.find?_some hr
        simpa [beq_iff_eq] using this
      rw [hrowid, hid] at hrowfind
      have hrrow : row = r := by
        unfold findPaymentById at hrowfind
        rw [hr] at hrowfind
        exact (Option.some.inj hrowfind).symm
      rw [if_pos hmem] at hr'
      injection hr' with h'
      subst h'
      right; right; right
      exact ⟨by rw [← hrrow]; exact hrowst, rfl⟩
    · rw [if_neg hmem] at hr'
      injection hr' with h'
      subst h'
      exact Or.inl rfl

/-- `deletePaymentRequest` never changes the status of a surviving row. -/
theorem delete_legalStep (st : DBState) (did u : Nat) :
    ∀ id r r', findPaymentById st id = some r →
      findPaymentById (deletePaymentRequest st did u).1 id = some r' →
      legalStep r.status r'.status := by
  intro id r r' hr hr'
  cases hf : findPaymentById st did with
  | none =>
    simp only [deletePaymentRequest, hf] at hr'
    rw [hr] at hr'
    cases hr'
    exact Or.inl rfl
  | some p =>
    simp only [deletePaymentRequest, hf] at hr'
    by_cases hu : p.userId ≠ u
    · rw [if_pos hu] at hr'
      rw [hr] at hr'
      cases hr'
      exact Or.inl rfl
    · rw [if_neg hu] at hr'
      by_cases hs : p.status ≠ PayStatus.Pending
      · rw [if_pos hs] at hr'
        rw [hr] at hr'
        cases hr'
        exact Or.inl rfl
      · rw [if_neg hs] at hr'
        unfold findPaymentById at hr hr'
        by_cases hdid : id = did
        · exfalso
          have hpr' := List.find?_some hr'
          have hmem := List.mem_of_find?_eq_some hr'
          rw [List.mem_filter] at hmem
          have : (r'.id == did) = false := by
            cases h : (r'.id == did)
            · rfl
            · rw [h] at hmem
              simp at hmem
          rw [beq_iff_eq] at hpr'
          rw [hdid] at hpr'
          simp [hpr'] at this
        · rw [find?_filter_of_imp _ (fun a ha => by
            simp only [beq_iff_eq] at ha
            simp [ha, hdid])] at hr'
          rw [hr] at hr'
          cases hr'
          exact Or.inl rfl

/-- `createPaymentRequest` never changes the status of a pre-existing
row. -/
theorem create_legalStep (st : DBState) (d : PaymentData) :
    ∀ id r r', findPaymentById st id = some r →
      findPaymentById (createPaymentRequest st d).1 id = some r' →
      legalStep r.status r'.status := by
  intro id r r' hr hr'
  cases hc : createPaymentRequestChecks st d with
  | error e =>
    simp only [createPaymentRequest, hc] at hr'
    rw [hr] at hr'
    cases hr'
    exact Or.inl rfl
  | ok _ =>
    simp only [createPaymentRequest, hc] at hr'
    unfold findPaymentById at hr hr'
    rw [List.find?_append, hr] at hr'
    simp only [Option.or_some] at hr'
    cases hr'
    exact Or.inl rfl

/-! ## Lemmas about the Attendance Ledger -/

theorem find?_of_filter_singleton {p : α → Bool} {l : List α} {a : α}
    (h : l.filter p = [a]) : l.find? p = some a := by
  rw [find?_eq_head?_filter, h]
  rfl

/-- `markAttendanceWithRating` never touches the `users`, `workers` or
`projects` tables. -/
theorem mark_preserves_tables (st : DBState) (d : RatingData) :
    (markAttendanceWithRating st d).1.users = st.users ∧
    (markAttendanceWithRating st d).1.workers = st.workers ∧
    (markAttendanceWithRating st d).1.projects = st.projects := by
  unfold markAttendanceWithRating
  by_cases h1 : (findUserById st d.userId).isNone = true
  · rw [if_pos h1]
    exact ⟨rfl, rfl, rfl⟩
  · rw [if_neg h1]
    by_cases h2 : (findWorkerOwned st d.workerId d.userId).isNone = true
    · rw [if_pos h2]
      exact ⟨rfl, rfl, rfl⟩
    · rw [if_neg h2]
      by_cases h3 : ¬ projectOwned st d.projectId d.userId = true
      · rw [if_pos h3]
        exact ⟨rfl, rfl, rfl⟩
      · rw [if_neg h3]
        cases hfind : findByWorkerAndProjectDate st d.workerId d.projectId d.date with
        | some e => exact ⟨rfl, rfl, rfl⟩
        | none => exact ⟨rfl, rfl, rfl⟩

/-- After one `markAttendanceWithRating` call, the tuple owns exactly one
record, carrying the call's `status/rating/comments`; its
`check_in`/`check_out` come from the pre-existing record when there was
one and are null when the call created the record. -/
theorem mark_tuple_filter (st : DBState) (d : RatingData)
    (hU : (findUserById st d.userId).isNone = false)
    (hW : (findWorkerOwned st d.workerId d.userId).isNone = false)
    (hP : projectOwned st d.projectId d.userId = true)
    (hTup : (st.attendance.filter (tupleMatch d.workerId d.projectId d.date)).length ≤ 1) :
    ∃ rec,
      (markAttendanceWithRating st d).1.attendance.filter
          (tupleMatch d.workerId d.projectId d.date) = [rec] ∧
      rec.status = d.status ∧ rec.rating = some d.rating ∧
      rec.comments = d.comments ∧
      (∀ e, findByWorkerAndProjectDate st d.workerId d.projectId d.date = some e →
        rec.checkIn = e.checkIn ∧ rec.checkOut = e.checkOut) ∧
      (findByWorkerAndProjectDate st d.workerId d.projectId d.date = none →
        rec.checkIn = none ∧ rec.checkOut = none) := by
  have hU' : ¬ ((findUserById st d.userId).isNone = true) := by
    rw [hU]; simp
  have hW' : ¬ ((findWorkerOwned st d.workerId d.userId).isNone = true) := by
    rw [hW]; simp
  have hP' : ¬ (¬ projectOwned st d.projectId d.userId = true) := by
    rw [hP]; simp
  unfold markAttendanceWithRating
  simp only [if_neg hU', if_neg hW', if_neg hP']
  cases hfind : findByWorkerAndProjectDate st d.workerId d.projectId d.date with
  | some e =>
    refine ⟨({ e with status := d.status, rating := some d.rating, comments := d.comments } : AttendanceRow), ?_, rfl, rfl, rfl, ?_, ?_⟩
    · have hpres : ∀ a : AttendanceRow, tupleMatch d.workerId d.projectId d.date
          (if a.id = e.id then { a with status := d.status, rating := some d.rating, comments := d.comments } else a)
          = tupleMatch d.workerId d.projectId d.date a := by
        intro a
        by_cases h : a.id = e.id <;> simp [h, tupleMatch]
      show (st.attendance.map _).filter _ = _
      rw [filter_map_of_pres _ _ hpres]
      have he_mem := List.mem_of_find?_eq_some hfind
      have he_p := List.find?_some hfind
      rw [filter_singleton_of_le_one he_mem he_p hTup]
      simp
    · intro e' he'
      cases he'
      exact ⟨rfl, rfl⟩
    · intro hnone
      cases hnone
  | none =>
    refine ⟨({ id := st.nextAttendanceId, userId := d.userId, workerId := d.workerId, projectId := d.projectId, date := d.date, checkIn := none, checkOut := none, status := d.status, rating := some d.rating, comments := d.comments, createdAt := st.nextAttendanceId } : AttendanceRow), ?_, rfl, rfl, rfl, ?_, ?_⟩
    · show (st.attendance ++ [_]).filter _ = _
      rw [List.filter_append]
      have h1 : st.attendance.filter (tupleMatch d.workerId d.projectId d.date) = [] :=
        List.filter_eq_nil_iff.mpr (List.find?_eq_none.mp hfind)
      rw [h1]
      simp [tupleMatch]
    · intro e' he'
      cases he'
    · intro _
      exact ⟨rfl, rfl⟩

theorem foldl_processStep_snd_length (rows : List PaymentRow) :
    ∀ (st : DBState) (acc : List (Option PaymentRow)),
      ((rows.foldl processStep (st, acc)).2).length = acc.length + rows.length := by
  induction rows with
  | nil => intro st acc; simp
  | cons p rows ih =>
    intro st acc
    rw [List.foldl_cons]
    show ((rows.foldl processStep (processStep (st, acc) p)).2).length = _
    rw [show processStep (st, acc) p
        = ((processStep (st, acc) p).1,
           acc ++ [(updatePaymentById st p.id
             (fun r => { r with status := PayStatus.Processed })).2]) from rfl]
    rw [ih]
    simp only [List.length_append, List.length_cons, List.length_nil]
    omega

theorem map_sum_count_split (f : Nat → ℚ) (pid : Nat) (ids : List Nat) :
    (ids.map f).sum = (ids.count pid : ℚ) * f pid
      + ((ids.filter (fun i => decide (i ≠ pid))).map f).sum := by
  induction ids with
  | nil => simp
  | cons i ids ih =>
    by_cases h : i = pid
    · subst h
      rw [List.map_cons, List.sum_cons, ih]
      have hc : (i :: ids).count i = ids.count i + 1 := by
        simp [List.count_cons]
      have hfil : (i :: ids).filter (fun j => decide (j ≠ i))
          = ids.filter (fun j => decide (j ≠ i)) := by
        simp [List.filter_cons]
      rw [hc, hfil]
      push_cast
      ring
    · rw [List.map_cons, List.sum_cons, ih]
      have hc : (i :: ids).count pid = ids.count pid := by
        simp [List.count_cons, h]
      have hfil : (i :: ids).filter (fun j => decide (j ≠ pid))
          = i :: ids.filter (fun j => decide (j ≠ pid)) := by
        simp [List.filter_cons, h]
      rw [hc, hfil, List.map_cons, List.sum_cons]
      ring

/-! ## The claims -/

/-- C1.  For every payment request created via `createPaymentRequest`
with a non-empty `workers` list `[(d1,a1),...,(dn,an)]`, the stored
`total_amount` is exactly `Σ di*ai`; each inserted line row stores
`lineTotal = di*ai`, recomputed independently of the caller-supplied
per-line total; and approval, rejection and batch processing never change
the `(id, total_amount)` association of any request in any state. -/
theorem createPaymentRequest_total_invariant
    (st st' : DBState) (d : PaymentData) (row : PaymentRow)
    (hne : d.workers ≠ [])
    (h : createPaymentRequest st d = (st', .ok row)) :
    row.totalAmount
        = (d.workers.map (fun w => w.daysWorked * w.allowancePerDay)).sum ∧
    st'.payment_request_workers
        = st.payment_request_workers ++ d.workers.map (mkPaymentWorkerRow row.id) ∧
    (∀ w ∈ d.workers,
      (mkPaymentWorkerRow row.id w).totalAmount
        = w.daysWorked * w.allowancePerDay) ∧
    (∀ st₁ rid u now, idTotals (approvePaymentRequest st₁ rid u now).1 = idTotals st₁) ∧
    (∀ st₁ rid u now reason,
      idTotals (rejectPaymentRequest st₁ rid u now reason).1 = idTotals st₁) ∧
    (∀ st₁ ids uid, idTotals (processPayments st₁ ids uid).1 = idTotals st₁) := by
  cases hc : createPaymentRequestChecks st d with
  | error e =>
    simp only [createPaymentRequest, hc] at h
    injection h with h1 h2
    cases h2
  | ok _ =>
    simp only [createPaymentRequest, hc] at h
    injection h with h1 h2
    injection h2 with h2
    subst h2
    subst h1
    refine ⟨?_, rfl, fun w _ => rfl,
      fun st₁ rid u now => approve_preserves_idTotals st₁ rid u now,
      fun st₁ rid u now reason => reject_preserves_idTotals st₁ rid u now reason,
      fun st₁ ids uid => process_preserves_idTotals st₁ ids uid⟩
    show d.workers.foldl (fun sum w => sum + w.daysWorked * w.allowancePerDay) 0 = _
    rw [foldl_add_map]
    ring

theorem exC1create_eq :
    createPaymentRequest exSt exC1data = (exC1st, .ok exC1row) := by
  refine Prod.ext rfl ?_
  show (createPaymentRequest exSt exC1data).2 = .ok exC1row
  have hc : createPaymentRequestChecks exSt exC1data = .ok () := rfl
  simp only [createPaymentRequest]
  rw [hc]
  norm_num [exC1data, exC1row, exSt, List.foldl, Except.ok.injEq, PaymentRow.mk.injEq]

/-- Witness for C1 at a concrete state and input (note the caller-supplied
line totals 999 and 5 are ignored: the stored total is 20·150+18·120). -/
theorem createPaymentRequest_total_invariant_witness :
    exC1data.workers ≠ [] ∧
    createPaymentRequest exSt exC1data = (exC1st, .ok exC1row) ∧
    exC1row.totalAmount
      = (exC1data.workers.map (fun w => w.daysWorked * w.allowancePerDay)).sum ∧
    exC1st.payment_request_workers
      = exSt.payment_request_workers
        ++ exC1data.workers.map (mkPaymentWorkerRow exC1row.id) :=
  ⟨by decide, exC1create_eq,
   (createPaymentRequest_total_invariant exSt exC1st exC1data exC1row
     (by decide) exC1create_eq).1,
   (createPaymentRequest_total_invariant exSt exC1st exC1data exC1row
     (by decide) exC1create_eq).2.1⟩

/-- C2.  Approve succeeds iff the request exists and is `Pending`; Reject
succeeds iff the request exists and is `Pending`; a successful
ProcessBatch implies every listed item was `Approved` (and owned); a
successful delete implies the request was owned and `Pending`; and no
operation ever produces a status transition other than
Pending→Approved, Pending→Rejected and Approved→Processed. -/
theorem payment_state_machine_legality (st : DBState)
    (hNodup : (st.payment_requests.map (fun r => r.id)).Nodup) :
    (∀ rid u now, (∃ v, (approvePaymentRequest st rid u now).2 = .ok v) ↔
      ∃ r, findByRequestId st rid = some r ∧ r.status = PayStatus.Pending) ∧
    (∀ rid u now reason,
      (∃ v, (rejectPaymentRequest st rid u now reason).2 = .ok v) ↔
      ∃ r, findByRequestId st rid = some r ∧ r.status = PayStatus.Pending) ∧
    (∀ ids u res, (processPayments st ids u).2 = .ok res →
      ∀ id ∈ ids, ∃ r, findPaymentById st id = some r ∧
        r.userId = u ∧ r.status = PayStatus.Approved) ∧
    (∀ id u, (∃ v, (deletePaymentRequest st id u).2 = .ok v) →
      ∃ r, findPaymentById st id = some r ∧ r.userId = u ∧
        r.status = PayStatus.Pending) ∧
    (∀ rid u now id r r', findPaymentById st id = some r →
      findPaymentById (approvePaymentRequest st rid u now).1 id = some r' →
      legalStep r.status r'.status) ∧
    (∀ rid u now reason id r r', findPaymentById st id = some r →
      findPaymentById (rejectPaymentRequest st rid u now reason).1 id = some r' →
      legalStep r.status r'.status) ∧
    (∀ ids u id r r', findPaymentById st id = some r →
      findPaymentById (processPayments st ids u).1 id = some r' →
      legalStep r.status r'.status) ∧
    (∀ did u id r r', findPaymentById st id = some r →
      findPaymentById (deletePaymentRequest st did u).1 id = some r' →
      legalStep r.status r'.status) ∧
    (∀ d id r r', findPaymentById st id = some r →
      findPaymentById (createPaymentRequest st d).1 id = some r' →
      legalStep r.status r'.status) := by
  refine ⟨fun rid u now => approve_ok_iff st rid u now,
    fun rid u now reason => reject_ok_iff st rid u now reason,
    ?_,
    fun id u => delete_ok_implies st id u,
    fun rid u now id r r' => approve_legalStep st rid u now hNodup id r r',
    fun rid u now reason id r r' =>
      reject_legalStep st rid u now reason hNodup id r r',
    fun ids u id r r' => process_legalStep st ids u id r r',
    fun did u id r r' => delete_legalStep st did u id r r',
    fun d id r r' => create_legalStep st d id r r'⟩
  intro ids u res h id hid
  cases hv : validatePayments st u ids with
  | error e =>
    rw [(processPayments_error_of_validate_error hv :
      processPayments st ids u = (st, .error e))] at h
    cases h
  | ok rows =>
    exact isValidPayment_iff.mp (validatePayments_ok_forall_ids hv id hid)

/-- Witness for C2 at a concrete state: primary keys are distinct, and
the Approve-iff clause holds there. -/
theorem payment_state_machine_legality_witness :
    (exSt.payment_requests.map (fun r => r.id)).Nodup ∧
    (∀ rid u now, (∃ v, (approvePaymentRequest exSt rid u now).2 = .ok v) ↔
      ∃ r, findByRequestId exSt rid = some r ∧ r.status = PayStatus.Pending) :=
  ⟨by decide, (payment_state_machine_legality exSt (by decide)).1⟩

/-- C3.  If any listed id is missing, foreign or not `Approved`,
`processPayments` fails and returns the state unchanged (so every
request, in particular every `Approved` one, keeps its status); if all
items validate, every listed request is set to `Processed` and the call
returns one processed record per item, `count = ids.length` and the sum
of the items' `total_amount`s. -/
theorem processPayments_all_or_nothing (st : DBState) (ids : List Nat) (u : Nat) :
    ((¬ ∀ id ∈ ids, isValidPayment st u id = true) →
      ∃ e, processPayments st ids u = (st, .error e)) ∧
    ((∀ id ∈ ids, isValidPayment st u id = true) →
      ∃ st' res, processPayments st ids u = (st', .ok res) ∧
        (∀ id ∈ ids, statusOf st' id = some PayStatus.Processed) ∧
        res.count = ids.length ∧
        res.totalAmount = (ids.map (totalOfD st)).sum ∧
        res.processedPayments.length = ids.length) := by
  constructor
  · intro hbad
    cases hv : validatePayments st u ids with
    | error e => exact ⟨e, processPayments_error_of_validate_error hv⟩
    | ok rows => exact absurd (validatePayments_ok_forall_ids hv) hbad
  · intro hvalid
    have hvalid' : ∀ id ∈ ids, ∃ r, findPaymentById st id = some r ∧
        r.userId = u ∧ r.status = PayStatus.Approved :=
      fun id hid => isValidPayment_iff.mp (hvalid id hid)
    have hsome : ∀ id ∈ ids, (findPaymentById st id).isSome := by
      intro id hid
      obtain ⟨r, hr, _, _⟩ := hvalid' id hid
      rw [hr]
      rfl
    have hv := validatePayments_ok_of_valid hvalid'
    have hrows_ids : ((ids.filterMap (findPaymentById st)).map (fun r => r.id)) = ids :=
      filterMap_find_map_id hsome
    refine ⟨((ids.filterMap (findPaymentById st)).foldl processStep (st, [])).1,
      { processedPayments := ((ids.filterMap (findPaymentById st)).foldl processStep (st, [])).2
        totalAmount := (ids.filterMap (findPaymentById st)).foldl
          (fun sum p => sum + p.totalAmount) 0
        count := ids.length },
      by simp only [processPayments, hv], ?_, rfl, ?_, ?_⟩
    · intro id hid
      obtain ⟨r, hr, _, _⟩ := hvalid' id hid
      have hfold := foldl_processStep_payment_requests
        (ids.filterMap (findPaymentById st)) st []
      have hstep : findPaymentById
          ((ids.filterMap (findPaymentById st)).foldl processStep (st, [])).1 id
          = (st.payment_requests.find? (fun r => r.id == id)).map
              (fun r => if r.id ∈ (ids.filterMap (findPaymentById st)).map
                  (fun p => p.id) then
                { r with status := PayStatus.Processed } else r) := by
        show List.find? (fun r => r.id == id)
            ((ids.filterMap (findPaymentById st)).foldl
              processStep (st, [])).1.payment_requests = _
        rw [hfold]
        exact find?_map_of_pres _ _ (fun a => by
          by_cases h : a.id ∈ (ids.filterMap (findPaymentById st)).map
            (fun p => p.id) <;> simp [h]) _
      unfold statusOf
      rw [hstep]
      unfold findPaymentById at hr
      rw [hr]
      have hrid : r.id = id := by
        have := List.find?_some hr
        simpa [beq_iff_eq] using this
      have hmem : r.id ∈ (ids.filterMap (findPaymentById st)).map (fun p => p.id) := by
        rw [hrows_ids, hrid]
        exact hid
      simp [hmem]
    · show (ids.filterMap (findPaymentById st)).foldl
          (fun sum p => sum + p.totalAmount) 0 = _
      rw [foldl_add_map (fun p : PaymentRow => p.totalAmount),
        filterMap_find_map_total hsome, zero_add]
    · show ((ids.filterMap (findPaymentById st)).foldl processStep (st, [])).2.length = _
      rw [foldl_processStep_snd_length]
      simp only [List.length_nil, Nat.zero_add]
      have hlen := congrArg List.length hrows_ids
      rwa [List.length_map] at hlen

/-- Witness for C3: ids `[1, 2]` contain a `Pending` request, so the batch
fails with the state unchanged; ids `[2, 3]` are all `Approved`, so the
batch processes both. -/
theorem processPayments_all_or_nothing_witness :
    (¬ ∀ id ∈ [1, 2], isValidPayment exSt 1 id = true) ∧
    (∃ e, processPayments exSt [1, 2] 1 = (exSt, .error e)) ∧
    (∀ id ∈ [2, 3], isValidPayment exSt 1 id = true) ∧
    (∃ st' res, processPayments exSt [2, 3] 1 = (st', .ok res) ∧
      (∀ id ∈ [2, 3], statusOf st' id = some PayStatus.Processed) ∧
      res.count = [2, 3].length ∧
      res.totalAmount = ([2, 3].map (totalOfD exSt)).sum ∧
      res.processedPayments.length = [2, 3].length) :=
  ⟨by decide, (processPayments_all_or_nothing exSt [1, 2] 1).1 (by decide),
   by decide, (processPayments_all_or_nothing exSt [2, 3] 1).2 (by decide)⟩

/-- C4.  The code does not enforce the claimed behaviour: the create
route wires `schemas.createPaymentRequest`, a name no validation module
defines (only `paymentRequest` exists, unwired), so the Joi
`workers.min(1)` rule never guards the path and `validate(undefined)`
throws a TypeError instead of answering `Validation failed`; and
`Payment.createPaymentRequest` itself accepts an empty `workers` list —
evaluated here at a concrete input, it succeeds and inserts a request
row with `total_amount = 0` and no line rows, contrary to the claim
(and to the repository's own test expecting a 400 `Validation failed`). -/
theorem createPaymentRequest_accepts_empty_workers :
    exC4data.workers = [] ∧
    createPaymentRequest exSt exC4data
      = ({ exSt with payment_requests := exSt.payment_requests ++ [exC4row],
                     nextPaymentId := 5 }, .ok exC4row) ∧
    exC4row.totalAmount = 0 ∧
    (createPaymentRequest exSt exC4data).1.payment_request_workers
      = exSt.payment_request_workers :=
  ⟨rfl, rfl, rfl, rfl⟩

/-- C9.  Approve and Reject never consult ownership: for any existing
`Pending` request and *any* caller id (owner or not), both succeed, the
returned row has the new status, and `approved_by` records the caller.
The approved status is also visible in the stored row. -/
theorem approve_reject_ignore_ownership (st : DBState) (rid : String)
    (caller now : Nat) (reason : String) (row : PaymentRow)
    (hfind : findByRequestId st rid = some row)
    (hpend : row.status = PayStatus.Pending) :
    (∃ r, (approvePaymentRequest st rid caller now).2 = .ok (some r) ∧
      r.status = PayStatus.Approved ∧ r.approvedBy = some caller) ∧
    statusOf (approvePaymentRequest st rid caller now).1 row.id
      = some PayStatus.Approved ∧
    (∃ r, (rejectPaymentRequest st rid caller now reason).2 = .ok (some r) ∧
      r.status = PayStatus.Rejected ∧ r.approvedBy = some caller ∧
      r.rejectionReason = some reason) := by
  have hs : ¬(row.status ≠ PayStatus.Pending) := not_ne_iff.mpr hpend
  have hx : ∃ x, st.payment_requests.find? (fun r => r.id == row.id) = some x :=
    Option.isSome_iff_exists.mp (List.find?_isSome.mpr
      ⟨row, List.mem_of_find?_eq_some hfind, by simp⟩)
  obtain ⟨x, hx⟩ := hx
  have hxid : x.id = row.id := by
    simpa [beq_iff_eq] using List.find?_some hx
  refine ⟨?_, ?_, ?_⟩
  · simp only [approvePaymentRequest, hfind, if_neg hs, updatePaymentById]
    rw [find?_map_of_pres _ _ (fun a => by
      by_cases hh : a.id = row.id <;> simp [hh]) _, hx]
    exact ⟨({ x with status := PayStatus.Approved, approvedBy := some caller, approvedAt := some now } : PaymentRow), by rw [Option.map_some', if_pos hxid], rfl, rfl⟩
  · simp only [approvePaymentRequest, hfind, if_neg hs, updatePaymentById, statusOf,
      findPaymentById]
    rw [find?_map_of_pres _ _ (fun a => by
      by_cases hh : a.id = row.id <;> simp [hh]) _, hx]
    rw [Option.map_some', if_pos hxid]
    rfl
  · simp only [rejectPaymentRequest, hfind, if_neg hs, updatePaymentById]
    rw [find?_map_of_pres _ _ (fun a => by
      by_cases hh : a.id = row.id <;> simp [hh]) _, hx]
    exact ⟨({ x with status := PayStatus.Rejected, approvedBy := some caller, approvedAt := some now, rejectionReason := some reason } : PaymentRow), by rw [Option.map_some', if_pos hxid], rfl, rfl, rfl⟩

/-- Witness for C9: caller 7 does not own `exP1` (owned by account 1) yet
both decisions succeed and record `approved_by = 7`. -/
theorem approve_reject_ignore_ownership_witness :
    findByRequestId exSt "PAY1" = some exP1 ∧
    exP1.status = PayStatus.Pending ∧
    exP1.userId ≠ 7 ∧
    (∃ r, (approvePaymentRequest exSt "PAY1" 7 0).2 = .ok (some r) ∧
      r.status = PayStatus.Approved ∧ r.approvedBy = some 7) :=
  ⟨rfl, rfl, by decide,
   (approve_reject_ignore_ownership exSt "PAY1" 7 0 "why" exP1 rfl rfl).1⟩

/-- C10.  Duplicate ids in a `processPayments` batch are accepted
(validation re-reads the unmutated state for each occurrence): the call
succeeds, `count` is the length of the list with duplicates, and the
total counts the duplicated request once per occurrence. -/
theorem processPayments_duplicate_ids (st : DBState) (paymentIds : List Nat)
    (u pid : Nat) (prow : PaymentRow)
    (hdup : 1 < paymentIds.count pid)
    (hrow : findPaymentById st pid = some prow)
    (hvalid : ∀ id ∈ paymentIds, isValidPayment st u id = true) :
    ∃ st' res, processPayments st paymentIds u = (st', .ok res) ∧
      res.count = paymentIds.length ∧
      res.totalAmount = (paymentIds.count pid : ℚ) * prow.totalAmount
        + ((paymentIds.filter (fun i => decide (i ≠ pid))).map (totalOfD st)).sum := by
  have hvalid' : ∀ id ∈ paymentIds, ∃ r, findPaymentById st id = some r ∧
      r.userId = u ∧ r.status = PayStatus.Approved :=
    fun id hid => isValidPayment_iff.mp (hvalid id hid)
  have hsome : ∀ id ∈ paymentIds, (findPaymentById st id).isSome := by
    intro id hid
    obtain ⟨r, hr, _, _⟩ := hvalid' id hid
    rw [hr]
    rfl
  have hv := validatePayments_ok_of_valid hvalid'
  refine ⟨((paymentIds.filterMap (findPaymentById st)).foldl processStep (st, [])).1,
    { processedPayments :=
        ((paymentIds.filterMap (findPaymentById st)).foldl processStep (st, [])).2
      totalAmount := (paymentIds.filterMap (findPaymentById st)).foldl
        (fun sum p => sum + p.totalAmount) 0
      count := paymentIds.length },
    by simp only [processPayments, hv], rfl, ?_⟩
  show (paymentIds.filterMap (findPaymentById st)).foldl
      (fun sum p => sum + p.totalAmount) 0 = _
  rw [foldl_add_map (fun p : PaymentRow => p.totalAmount),
    filterMap_find_map_total hsome, zero_add, map_sum_count_split (totalOfD st) pid]
  have hpd : totalOfD st pid = prow.totalAmount := by
    simp [totalOfD, hrow]
  rw [hpd]

/-- Witness for C10: the batch `[2, 2, 3]` lists request 2 twice. -/
theorem processPayments_duplicate_ids_witness :
    1 < ([2, 2, 3] : List Nat).count 2 ∧
    findPaymentById exSt 2 = some exP2 ∧
    (∀ id ∈ ([2, 2, 3] : List Nat), isValidPayment exSt 1 id = true) ∧
    (∃ st' res, processPayments exSt [2, 2, 3] 1 = (st', .ok res) ∧
      res.count = ([2, 2, 3] : List Nat).length ∧
      res.totalAmount = (([2, 2, 3] : List Nat).count 2 : ℚ) * exP2.totalAmount
        + ((([2, 2, 3] : List Nat).filter (fun i => decide (i ≠ 2))).map
            (totalOfD exSt)).sum) :=
  ⟨by decide, rfl, by decide,
   processPayments_duplicate_ids exSt [2, 2, 3] 1 2 exP2 (by decide) rfl (by decide)⟩

/-- C5.  Two `markAttendanceWithRating` calls for the same
`(worker, project, date)` tuple (starting from a state with at most one
record for the tuple, as the unique constraint guarantees) leave exactly
one record for the tuple; it carries the second call's
`status/rating/comments`, while `check_in`/`check_out` are whatever they
were after the first call — which in turn preserved them from any
pre-existing record. -/
theorem markAttendanceWithRating_upsert_convergence
    (st st1 st2 : DBState)
    (r1 r2 : Except String (Option AttendanceRow)) (d1 d2 : RatingData)
    (hw : d2.workerId = d1.workerId) (hp : d2.projectId = d1.projectId)
    (hd : d2.date = d1.date)
    (hU1 : (findUserById st d1.userId).isNone = false)
    (hW1 : (findWorkerOwned st d1.workerId d1.userId).isNone = false)
    (hP1 : projectOwned st d1.projectId d1.userId = true)
    (hU2 : (findUserById st d2.userId).isNone = false)
    (hW2 : (findWorkerOwned st d2.workerId d2.userId).isNone = false)
    (hP2 : projectOwned st d2.projectId d2.userId = true)
    (hTup : (st.attendance.filter
      (tupleMatch d1.workerId d1.projectId d1.date)).length ≤ 1)
    (h1 : markAttendanceWithRating st d1 = (st1, r1))
    (h2 : markAttendanceWithRating st1 d2 = (st2, r2)) :
    ∃ rec,
      st2.attendance.filter (tupleMatch d1.workerId d1.projectId d1.date) = [rec] ∧
      rec.status = d2.status ∧ rec.rating = some d2.rating ∧
      rec.comments = d2.comments ∧
      ∃ rec1,
        findByWorkerAndProjectDate st1 d1.workerId d1.projectId d1.date = some rec1 ∧
        rec.checkIn = rec1.checkIn ∧ rec.checkOut = rec1.checkOut ∧
        ∀ rec0,
          findByWorkerAndProjectDate st d1.workerId d1.projectId d1.date = some rec0 →
          rec1.checkIn = rec0.checkIn ∧ rec1.checkOut = rec0.checkOut := by
  obtain ⟨rec1, hflt1, hs1, hr1, hc1, hpre1, hnew1⟩ :=
    mark_tuple_filter st d1 hU1 hW1 hP1 hTup
  rw [h1] at hflt1
  have htab := mark_preserves_tables st d1
  rw [h1] at htab
  have hU2' : (findUserById st1 d2.userId).isNone = false := by
    unfold findUserById
    rw [htab.1]
    exact hU2
  have hW2' : (findWorkerOwned st1 d2.workerId d2.userId).isNone = false := by
    unfold findWorkerOwned
    rw [htab.2.1]
    exact hW2
  have hP2' : projectOwned st1 d2.projectId d2.userId = true := by
    unfold projectOwned findProjectById
    rw [htab.2.2]
    exact hP2
  have hTup1 : (st1.attendance.filter
      (tupleMatch d2.workerId d2.projectId d2.date)).length ≤ 1 := by
    rw [hw, hp, hd, hflt1]
    simp
  obtain ⟨rec2, hflt2, hs2, hr2, hc2, hpre2, hnew2⟩ :=
    mark_tuple_filter st1 d2 hU2' hW2' hP2' hTup1
  rw [h2] at hflt2
  rw [hw, hp, hd] at hflt2 hpre2
  have hfind1 : findByWorkerAndProjectDate st1 d1.workerId d1.projectId d1.date
      = some rec1 := find?_of_filter_singleton hflt1
  obtain ⟨hci2, hco2⟩ := hpre2 rec1 hfind1
  exact ⟨rec2, hflt2, hs2, hr2, hc2, rec1, hfind1, hci2, hco2,
    fun rec0 h0 => hpre1 rec0 h0⟩

theorem exC5mark1_eq :
    markAttendanceWithRating exSt exC5d1
      = (exC5st1, (markAttendanceWithRating exSt exC5d1).2) := rfl

theorem exC5mark2_eq :
    markAttendanceWithRating exC5st1 exC5d2
      = (exC5st2, (markAttendanceWithRating exC5st1 exC5d2).2) := rfl

/-- Witness for C5: two rating calls on the tuple of `exA1` (which has
check-in 540 and check-out 1020) leave one record with the second call's
fields and the original times. -/
theorem markAttendanceWithRating_upsert_convergence_witness :
    (exSt.attendance.filter
      (tupleMatch exC5d1.workerId exC5d1.projectId exC5d1.date)).length ≤ 1 ∧
    ∃ rec,
      exC5st2.attendance.filter
        (tupleMatch exC5d1.workerId exC5d1.projectId exC5d1.date) = [rec] ∧
      rec.status = exC5d2.status ∧ rec.rating = some exC5d2.rating ∧
      rec.comments = exC5d2.comments ∧
      ∃ rec1,
        findByWorkerAndProjectDate exC5st1 exC5d1.workerId exC5d1.projectId
          exC5d1.date = some rec1 ∧
        rec.checkIn = rec1.checkIn ∧ rec.checkOut = rec1.checkOut ∧
        ∀ rec0,
          findByWorkerAndProjectDate exSt exC5d1.workerId exC5d1.projectId
            exC5d1.date = some rec0 →
          rec1.checkIn = rec0.checkIn ∧ rec1.checkOut = rec0.checkOut :=
  ⟨by decide,
   markAttendanceWithRating_upsert_convergence exSt exC5st1 exC5st2
     (markAttendanceWithRating exSt exC5d1).2
     (markAttendanceWithRating exC5st1 exC5d2).2 exC5d1 exC5d2
     rfl rfl rfl rfl rfl rfl rfl rfl rfl (by decide)
     exC5mark1_eq exC5mark2_eq⟩

/-- Counterexample to C6 as stated: for attendance *Delete*, the
ownership failure is reported with exactly the same error value as the
record-does-not-exist failure (`"Attendance record not found or access
denied"`), so Delete does not report a distinct Forbidden case. -/
theorem deleteAttendance_merged_error_cex :
    findAttendanceById exSt 1 = some exA1 ∧
    exA1.userId ≠ 2 ∧
    (deleteAttendance exSt 1 2).2
      = .error "Attendance record not found or access denied" ∧
    findAttendanceById exStEmptyAtt 1 = none ∧
    (deleteAttendance exStEmptyAtt 1 2).2
      = .error "Attendance record not found or access denied" :=
  ⟨rfl, by decide, rfl, rfl, rfl⟩

/-- C6 (amended).  Attendance *Update* reports a missing record and a
foreign record as two distinct errors (`"Attendance record not found"`
versus the access-denied message), while attendance *Delete* reports one
merged `"Attendance record not found or access denied"` error in both
cases. -/
theorem attendance_error_reporting (st : DBState) (id uid : Nat)
    (u : AttendanceUpdate) :
    (findAttendanceById st id = none →
      (updateAttendance st id u uid).2 = .error "Attendance record not found" ∧
      (deleteAttendance st id uid).2
        = .error "Attendance record not found or access denied") ∧
    (∀ a, findAttendanceById st id = some a → a.userId ≠ uid →
      (updateAttendance st id u uid).2
        = .error "Access denied. You can only update your own attendance records." ∧
      (deleteAttendance st id uid).2
        = .error "Attendance record not found or access denied") := by
  constructor
  · intro h
    constructor
    · simp only [updateAttendance, h]
    · simp only [deleteAttendance, h]
  · intro a ha hne
    constructor
    · simp only [updateAttendance, ha, if_pos hne]
    · simp only [deleteAttendance, ha, if_pos hne]

/-- Witness for the amended C6 at a concrete state: caller 2 does not own
record 1. -/
theorem attendance_error_reporting_witness :
    (updateAttendance exSt 1 {} 2).2
      = .error "Access denied. You can only update your own attendance records." ∧
    (deleteAttendance exSt 1 2).2
      = .error "Attendance record not found or access denied" :=
  (attendance_error_reporting exSt 1 2 {}).2 exA1 rfl (by decide)

/-- Counterexample to C7 as stated: with a `startDate` filter, the
attendance query pages over 1 matching row but reports `totalCount = 2`
(the count ignores the date range); likewise the payment listing pages
over 2 rows but reports `totalCount = 3`. -/
theorem totalCount_ignores_dateRange_cex :
    (getAttendanceRecords exSt exAttF {}).2.totalCount = 2 ∧
    ((getAttendanceRecords exSt exAttF {}).1).length = 1 ∧
    (exSt.attendance.filter (attMatchesAllFilters exAttF)).length = 1 ∧
    (getPaymentRequests exSt exPayF {}).2.totalCount = 3 ∧
    ((getPaymentRequests exSt exPayF {}).1).length = 2 ∧
    (exSt.payment_requests.filter (payMatchesAllFilters exPayF)).length = 2 := by
  refine ⟨rfl, ?_, rfl, rfl, ?_, rfl⟩ <;> decide

/-- C7 (amended).  `totalCount` is computed from the equality conditions
only; whenever no `startDate`/`endDate` filter is supplied it therefore
equals the number of rows matching the full filter set — the rows the
same call pages over — for both the attendance and payment listings. -/
theorem totalCount_matches_filters_without_dateRange (st : DBState)
    (f : AttFilters) (g : PayFilters) (pg : Pagination)
    (hs1 : f.startDate = none) (he1 : f.endDate = none)
    (hs2 : g.startDate = none) (he2 : g.endDate = none) :
    (getAttendanceRecords st f pg).2.totalCount
      = (st.attendance.filter (attMatchesAllFilters f)).length ∧
    (getPaymentRequests st g pg).2.totalCount
      = (st.payment_requests.filter (payMatchesAllFilters g)).length := by
  constructor
  · show (st.attendance.filter (attMatchesEqConds f)).length = _
    congr 1
    apply List.filter_congr
    intro a _
    unfold attMatchesAllFilters
    rw [hs1, he1]
    simp
  · show (st.payment_requests.filter (payMatchesEqConds g)).length = _
    congr 1
    apply List.filter_congr
    intro a _
    unfold payMatchesAllFilters
    rw [hs2, he2]
    simp

/-- Witness for the amended C7 with empty filter sets. -/
theorem totalCount_matches_filters_witness :
    (getAttendanceRecords exSt {} {}).2.totalCount
      = (exSt.attendance.filter (attMatchesAllFilters {})).length ∧
    (getPaymentRequests exSt {} {}).2.totalCount
      = (exSt.payment_requests.filter (payMatchesAllFilters {})).length :=
  totalCount_matches_filters_without_dateRange exSt {} {} {} rfl rfl rfl rfl

/-- C8.  Under the schema constraint that every stored rating lies in
`[1,5]`, `getAttendanceStats` returns an `attendanceRate` within
`[0,100]` and an `averageRating` within `[0,5]`; the rate is exactly 0
when no records match (no division-by-zero), and the average is exactly
0 when no non-null rating exists. -/
theorem getAttendanceStats_bounds (st : DBState) (f : StatsFilters)
    (hr : ∀ a ∈ st.attendance,
      a.rating.all (fun q => decide (1 ≤ q) && decide (q ≤ 5)) = true) :
    0 ≤ (getAttendanceStats st f).attendanceRate ∧
    (getAttendanceStats st f).attendanceRate ≤ 100 ∧
    0 ≤ (getAttendanceStats st f).averageRating ∧
    (getAttendanceStats st f).averageRating ≤ 5 ∧
    ((getAttendanceStats st f).totalRecords = 0 →
      (getAttendanceStats st f).attendanceRate = 0) ∧
    ((st.attendance.filter (statsMatches f)).filterMap (fun a => a.rating) = [] →
      (getAttendanceStats st f).averageRating = 0) := by
  have hrate : (getAttendanceStats st f).attendanceRate
      = (if 0 < (st.attendance.filter (statsMatches f)).length then
          round2 (((((st.attendance.filter (statsMatches f)).filter
              (fun a => decide (a.status = AttStatus.Present))).length : ℚ)
            + (((st.attendance.filter (statsMatches f)).filter
              (fun a => decide (a.status = AttStatus.Late))).length : ℚ))
            / ((st.attendance.filter (statsMatches f)).length : ℚ) * 100)
        else 0) := rfl
  have havg : (getAttendanceStats st f).averageRating
      = round2 (if ((st.attendance.filter (statsMatches f)).filterMap
            (fun a => a.rating)).isEmpty then 0
          else ((st.attendance.filter (statsMatches f)).filterMap
              (fun a => a.rating)).sum
            / ((((st.attendance.filter (statsMatches f)).filterMap
              (fun a => a.rating)).length : ℕ) : ℚ)) := rfl
  have htotal : (getAttendanceStats st f).totalRecords
      = (st.attendance.filter (statsMatches f)).length := rfl
  have hdisj : ∀ a : AttendanceRow,
      ¬(decide (a.status = AttStatus.Present) = true ∧
        decide (a.status = AttStatus.Late) = true) := by
    rintro a ⟨h1, h2⟩
    rw [decide_eq_true_eq] at h1 h2
    rw [h1] at h2
    cases h2
  have hple := length_filter_add_length_filter_le
    (fun a => decide (a.status = AttStatus.Present))
    (fun a => decide (a.status = AttStatus.Late)) hdisj
    (st.attendance.filter (statsMatches f))
  have hqmem : ∀ q ∈ (st.attendance.filter (statsMatches f)).filterMap
      (fun a => a.rating), 1 ≤ q ∧ q ≤ 5 := by
    intro q hq
    obtain ⟨a, ha, haq⟩ := List.mem_filterMap.mp hq
    have ha' : a ∈ st.attendance := (List.mem_filter.mp ha).1
    have := hr a ha'
    rw [haq] at this
    simp only [Option.all, Bool.and_eq_true, decide_eq_true_eq] at this
    exact this
  have hratebounds : 0 ≤ (getAttendanceStats st f).attendanceRate ∧
      (getAttendanceStats st f).attendanceRate ≤ 100 := by
    rw [hrate]
    by_cases htot0 : 0 < (st.attendance.filter (statsMatches f)).length
    · rw [if_pos htot0]
      have hplec : ((((st.attendance.filter (statsMatches f)).filter
            (fun a => decide (a.status = AttStatus.Present))).length : ℚ)
          + (((st.attendance.filter (statsMatches f)).filter
            (fun a => decide (a.status = AttStatus.Late))).length : ℚ))
          ≤ ((st.attendance.filter (statsMatches f)).length : ℚ) := by
        exact_mod_cast hple
      have ht : (0 : ℚ) < ((st.attendance.filter (statsMatches f)).length : ℚ) := by
        exact_mod_cast htot0
      have hx0 : 0 ≤ ((((st.attendance.filter (statsMatches f)).filter
            (fun a => decide (a.status = AttStatus.Present))).length : ℚ)
          + (((st.attendance.filter (statsMatches f)).filter
            (fun a => decide (a.status = AttStatus.Late))).length : ℚ))
          / ((st.attendance.filter (statsMatches f)).length : ℚ) * 100 := by
        positivity
      have hx100 : ((((st.attendance.filter (statsMatches f)).filter
            (fun a => decide (a.status = AttStatus.Present))).length : ℚ)
          + (((st.attendance.filter (statsMatches f)).filter
            (fun a => decide (a.status = AttStatus.Late))).length : ℚ))
          / ((st.attendance.filter (statsMatches f)).length : ℚ) * 100 ≤ 100 := by
        rw [div_mul_eq_mul_div, div_le_iff₀ ht]
        linarith
      constructor
      · exact round2_nonneg hx0
      · have := round2_le_intCast (n := 100) (by exact_mod_cast hx100)
        exact_mod_cast this
    · rw [if_neg htot0]
      norm_num
  have havgbounds : 0 ≤ (getAttendanceStats st f).averageRating ∧
      (getAttendanceStats st f).averageRating ≤ 5 := by
    rw [havg]
    by_cases hemp : ((st.attendance.filter (statsMatches f)).filterMap
        (fun a => a.rating)).isEmpty = true
    · rw [if_pos hemp, round2_zero]
      norm_num
    · rw [if_neg hemp]
      have hne : (st.attendance.filter (statsMatches f)).filterMap
          (fun a => a.rating) ≠ [] := by
        intro hnil
        rw [hnil] at hemp
        exact hemp rfl
      have hlen : 0 < ((st.attendance.filter (statsMatches f)).filterMap
          (fun a => a.rating)).length := List.length_pos.mpr hne
      have hlenq : (0 : ℚ) < (((st.attendance.filter (statsMatches f)).filterMap
          (fun a => a.rating)).length : ℚ) := by
        exact_mod_cast hlen
      have hsumle := list_sum_le_mul_length
        ((st.attendance.filter (statsMatches f)).filterMap (fun a => a.rating)) 5
        (fun x hx => (hqmem x hx).2)
      have hlesum := mul_length_le_list_sum
        ((st.attendance.filter (statsMatches f)).filterMap (fun a => a.rating)) 1
        (fun x hx => (hqmem x hx).1)
      have havg0 : 0 ≤ ((st.attendance.filter (statsMatches f)).filterMap
            (fun a => a.rating)).sum
          / (((st.attendance.filter (statsMatches f)).filterMap
            (fun a => a.rating)).length : ℚ) := by
        apply div_nonneg _ (le_of_lt hlenq)
        nlinarith
      have havg5 : ((st.attendance.filter (statsMatches f)).filterMap
            (fun a => a.rating)).sum
          / (((st.attendance.filter (statsMatches f)).filterMap
            (fun a => a.rating)).length : ℚ) ≤ 5 := by
        rw [div_le_iff₀ hlenq]
        linarith
      constructor
      · exact round2_nonneg havg0
      · have := round2_le_intCast (n := 5) (by exact_mod_cast havg5)
        exact_mod_cast this
  refine ⟨hratebounds.1, hratebounds.2, havgbounds.1, havgbounds.2, ?_, ?_⟩
  · intro h0
    rw [htotal] at h0
    rw [hrate, h0]
    norm_num
  · intro hq
    rw [havg, hq]
    simp only [List.isEmpty_nil, if_pos]
    exact round2_zero

/-- Witness for C8: the ratings stored in `exSt` all lie in `[1,5]`. -/
theorem getAttendanceStats_bounds_witness :
    (∀ a ∈ exSt.attendance,
      a.rating.all (fun q => decide (1 ≤ q) && decide (q ≤ 5)) = true) ∧
    (0 ≤ (getAttendanceStats exSt {}).attendanceRate ∧
      (getAttendanceStats exSt {}).attendanceRate ≤ 100 ∧
      0 ≤ (getAttendanceStats exSt {}).averageRating ∧
      (getAttendanceStats exSt {}).averageRating ≤ 5 ∧
      ((getAttendanceStats exSt {}).totalRecords = 0 →
        (getAttendanceStats exSt {}).attendanceRate = 0) ∧
      ((exSt.attendance.filter (statsMatches {})).filterMap (fun a => a.rating) = [] →
        (getAttendanceStats exSt {}).averageRating = 0)) :=
  ⟨by decide, getAttendanceStats_bounds exSt {} (by decide)⟩

end TransPipe
